import Mathlib

/-!
Shallow embedding of the CloudyGUI scheduler core
(`src/cloudy/src/cloudy/scheduler/resource_manager.py`,
`src/src/cloudy/scheduler/scheduler.py`, `src/src/cloudy/core/models.py`)
and proofs about it.

Numeric quantities of the Python code (resource amounts, probabilities,
usage fractions, timestamps) are embedded as follows:
* resource amounts handled by the `ResourceManager` and job requirement
  totals are integers (`Int`), as produced by the workload code;
* fractional quantities (random draws, usage fractions, progress, costs,
  quota thresholds) are exact rationals represented by the computable
  fraction type `Q` below (numerator/denominator, denominator kept
  positive by construction), so that every definition evaluates inside
  the kernel;
* simulated timestamps (`datetime`) are integers counting seconds; a
  `timedelta(minutes=k)` is `60 * k`.
-/

/-- Exact fraction `n / d`.  All constructors and operations used by the
embedding keep `d` positive, so the cross-multiplication order below agrees
with the rational order (see the `Q.val` soundness lemmas). -/
structure Q where
  n : Int
  d : Int
deriving DecidableEq

/-- The integer `k` as a fraction. -/
def Q.ofInt (k : Int) : Q := ⟨k, 1⟩

def Q.add (a b : Q) : Q := ⟨a.n * b.d + b.n * a.d, a.d * b.d⟩

def Q.sub (a b : Q) : Q := ⟨a.n * b.d - b.n * a.d, a.d * b.d⟩

def Q.mul (a b : Q) : Q := ⟨a.n * b.n, a.d * b.d⟩

/-- Division, with the sign moved to the numerator so the denominator stays
positive.  A zero divisor yields `0` (no state built by the embedded
scheduler divides by zero on its probabilistic paths; Python would raise
`ZeroDivisionError` there). -/
def Q.div (a b : Q) : Q :=
  if b.n = 0 then ⟨0, 1⟩
  else if 0 < b.n then ⟨a.n * b.d, a.d * b.n⟩
  else ⟨-(a.n * b.d), a.d * (-b.n)⟩

/-- Cross-multiplied `≤` (correct for positive denominators). -/
def Q.le (a b : Q) : Prop := a.n * b.d ≤ b.n * a.d

/-- Cross-multiplied `<` (correct for positive denominators). -/
def Q.lt (a b : Q) : Prop := a.n * b.d < b.n * a.d

instance (a b : Q) : Decidable (Q.le a b) := by unfold Q.le; infer_instance

instance (a b : Q) : Decidable (Q.lt a b) := by unfold Q.lt; infer_instance

/-- Python `min` (returns the first argument on ties). -/
def Q.min (a b : Q) : Q := if Q.le a b then a else b

/-- Python `max` (returns the second argument on ties, which has the same
value). -/
def Q.max (a b : Q) : Q := if Q.le a b then b else a

/-- Python `int(x)`: truncation toward zero. -/
def Q.trunc (a : Q) : Int := a.n.tdiv a.d

/-- The rational value of a fraction. -/
def Q.val (a : Q) : ℚ := (a.n : ℚ) / (a.d : ℚ)

theorem Q.le_val {a b : Q} (ha : 0 < a.d) (hb : 0 < b.d) :
    Q.le a b ↔ a.val ≤ b.val := by
  unfold Q.le Q.val
  rw [div_le_div_iff₀ (by exact_mod_cast ha) (by exact_mod_cast hb)]
  exact_mod_cast Iff.rfl

theorem Q.lt_val {a b : Q} (ha : 0 < a.d) (hb : 0 < b.d) :
    Q.lt a b ↔ a.val < b.val := by
  unfold Q.lt Q.val
  rw [div_lt_div_iff₀ (by exact_mod_cast ha) (by exact_mod_cast hb)]
  exact_mod_cast Iff.rfl

theorem Q.add_val {a b : Q} (ha : a.d ≠ 0) (hb : b.d ≠ 0) :
    (Q.add a b).val = a.val + b.val := by
  unfold Q.add Q.val
  have ha' : (a.d : ℚ) ≠ 0 := by exact_mod_cast ha
  have hb' : (b.d : ℚ) ≠ 0 := by exact_mod_cast hb
  push_cast
  field_simp

theorem Q.mul_val (a b : Q) : (Q.mul a b).val = a.val * b.val := by
  unfold Q.mul Q.val
  push_cast
  rw [div_mul_div_comm]

/-- Uniform draw on `[a, b]` from a unit random value `r`, as
`a + (b - a) * r` (Python `random.uniform(a, b)`). -/
def Q.uniform (a b r : Q) : Q := Q.add a (Q.mul (Q.sub b a) r)

/-- A deterministic source of "random" unit draws: the next values of
Python's injected `random` module, consumed front to back (an exhausted
source keeps yielding `0`). -/
structure Rng where
  vals : List Q

def Rng.next : Rng → Q × Rng
  | ⟨[]⟩ => (Q.ofInt 0, ⟨[]⟩)
  | ⟨x :: xs⟩ => (x, ⟨xs⟩)

/-- A resource vector over the fixed dimension set
`{cpu, memory, gpu, disk}` (integer quantities, as produced by the
workload generator: `cpu_required`, `memory_required`, `gpu_required`,
`disk_required`). -/
structure RVec where
  cpu : Int
  memory : Int
  gpu : Int
  disk : Int
deriving DecidableEq

def RVec.zero : RVec := ⟨0, 0, 0, 0⟩

def RVec.add (a b : RVec) : RVec :=
  ⟨a.cpu + b.cpu, a.memory + b.memory, a.gpu + b.gpu, a.disk + b.disk⟩

def RVec.sub (a b : RVec) : RVec :=
  ⟨a.cpu - b.cpu, a.memory - b.memory, a.gpu - b.gpu, a.disk - b.disk⟩

/-- Componentwise `≤` over every dimension of the pool. -/
def RVec.le (a b : RVec) : Prop :=
  a.cpu ≤ b.cpu ∧ a.memory ≤ b.memory ∧ a.gpu ≤ b.gpu ∧ a.disk ≤ b.disk

instance (a b : RVec) : Decidable (RVec.le a b) := by
  unfold RVec.le; infer_instance

def RVec.nonneg (a : RVec) : Prop :=
  0 ≤ a.cpu ∧ 0 ≤ a.memory ∧ 0 ≤ a.gpu ∧ 0 ≤ a.disk

instance (a : RVec) : Decidable (RVec.nonneg a) := by
  unfold RVec.nonneg; infer_instance

theorem RVec.sub_add_cancel (a b : RVec) : (a.sub b).add b = a := by
  cases a; cases b
  simp [RVec.sub, RVec.add]

/-!
## ResourceManager
`src/cloudy/src/cloudy/scheduler/resource_manager.py`.
Requests handled through the scheduler always carry all four pool
dimensions (`Job.get_total_resources` builds them that way), so the
Python iteration over the request's keys is iteration over the full
dimension set.
-/

structure ResourceManager where
  total_resources : RVec
  available_resources : RVec
deriving DecidableEq

/-- `ResourceManager.can_allocate`: true iff every dimension of the request
is at most the available amount.  No side effect. -/
def ResourceManager.can_allocate (rm : ResourceManager)
    (required_resources : RVec) : Prop :=
  RVec.le required_resources rm.available_resources

instance (rm : ResourceManager) (v : RVec) :
    Decidable (rm.can_allocate v) := by
  unfold ResourceManager.can_allocate; infer_instance

/-- `ResourceManager.allocate`: subtract the request from the available
vector and return `true` when satisfiable, otherwise return `false`
without touching the state. -/
def ResourceManager.allocate (rm : ResourceManager)
    (required_resources : RVec) : ResourceManager × Bool :=
  if rm.can_allocate required_resources then
    ({ rm with
        available_resources :=
          rm.available_resources.sub required_resources }, true)
  else (rm, false)

/-- `ResourceManager.release`: add the vector back, unconditionally. -/
def ResourceManager.release (rm : ResourceManager)
    (resources : RVec) : ResourceManager :=
  { rm with available_resources := rm.available_resources.add resources }

/-- C1: a request exceeding the available amount in some dimension is
refused with no state change; a granted request followed immediately by a
release of the same vector restores the available vector exactly, and no
dimension of the available vector is negative after the failed call, after
the grant, or after the pair (given it was non-negative before). -/
theorem C1_allocate_release_roundtrip (rm : ResourceManager) (v : RVec)
    (hav : rm.available_resources.nonneg) :
    (¬ RVec.le v rm.available_resources →
      rm.allocate v = (rm, false) ∧ rm.available_resources.nonneg) ∧
    (∀ rm1, rm.allocate v = (rm1, true) →
      rm1.available_resources.nonneg ∧
      (rm1.release v).available_resources = rm.available_resources ∧
      (rm1.release v).available_resources.nonneg) := by
  constructor
  · intro hno
    have : ¬ rm.can_allocate v := hno
    simp [ResourceManager.allocate, this, hav]
  · intro rm1 halloc
    by_cases hc : rm.can_allocate v
    · simp only [ResourceManager.allocate, if_pos hc] at halloc
      have hrm1 : rm1 = { rm with
          available_resources := rm.available_resources.sub v } := by
        exact (Prod.mk.injEq _ _ _ _ ▸ halloc).1.symm
      subst hrm1
      refine ⟨?_, ?_, ?_⟩
      · obtain ⟨h1, h2, h3, h4⟩ := hc
        exact ⟨by simpa [RVec.sub] using h1, by simpa [RVec.sub] using h2,
          by simpa [RVec.sub] using h3, by simpa [RVec.sub] using h4⟩
      · simp [ResourceManager.release, RVec.sub_add_cancel]
      · simpa [ResourceManager.release, RVec.sub_add_cancel] using hav
    · simp [ResourceManager.allocate, hc] at halloc

/-- C1 witness: the pool of spec Scenario A (`total = {cpu:10}`, available
`{cpu:4}` after an earlier grant of 6): a request of 5 cpus is refused
unchanged, and the earlier grant of 6 releases back to the full pool. -/
theorem C1_allocate_release_roundtrip_witness :
    ((⟨⟨10, 0, 0, 0⟩, ⟨4, 0, 0, 0⟩⟩ : ResourceManager).allocate
        ⟨5, 0, 0, 0⟩ =
      (⟨⟨10, 0, 0, 0⟩, ⟨4, 0, 0, 0⟩⟩, false)) ∧
    ((⟨⟨10, 0, 0, 0⟩, ⟨4, 0, 0, 0⟩⟩ : ResourceManager).release
        ⟨6, 0, 0, 0⟩).available_resources = ⟨10, 0, 0, 0⟩ := by
  refine ⟨((C1_allocate_release_roundtrip
      ⟨⟨10, 0, 0, 0⟩, ⟨4, 0, 0, 0⟩⟩ ⟨5, 0, 0, 0⟩ (by decide)).1
      (by decide)).1, ?_⟩
  have h := ((C1_allocate_release_roundtrip
      ⟨⟨10, 0, 0, 0⟩, ⟨10, 0, 0, 0⟩⟩ ⟨6, 0, 0, 0⟩ (by decide)).2
      ⟨⟨10, 0, 0, 0⟩, ⟨4, 0, 0, 0⟩⟩ (by decide)).2.1
  simpa using h


/-!
## Data model
`src/src/cloudy/core/models.py`.  Only the attributes the scheduler code
reads or writes are embedded.  `required` bundles the four Python
attributes `cpu_required`, `memory_required`, `gpu_required`,
`disk_required`; `is_spot` models the dynamically-added `is_spot`
attribute, whose `getattr(instance, 'is_spot', False)` default is the
field's initial value `false`.  Everything lives in namespace `Cloudy`
to keep `Task` clear of the homonymous core type.
-/

namespace Cloudy

/-- The status strings occurring in the scheduler and model code. -/
inductive Status where
  | pending
  | waiting
  | running
  | terminated
  | failed
  | interrupted
  | preempting
deriving DecidableEq

/-- A usage vector: fractional per-dimension quantities
(`current_usage`, `peak_usage`, `final_usage`). -/
structure QVec where
  cpu : Q
  memory : Q
  gpu : Q
  disk : Q
deriving DecidableEq

def QVec.zero : QVec := ⟨Q.ofInt 0, Q.ofInt 0, Q.ofInt 0, Q.ofInt 0⟩

/-- Python `sum(d.values())` over the four dimensions in insertion
order. -/
def QVec.sum (u : QVec) : Q :=
  Q.add (Q.add (Q.add u.cpu u.memory) u.gpu) u.disk

/-- All four values are (numerically) zero, i.e. the negation of Python
`any(d.values())`. -/
def QVec.isZero (u : QVec) : Prop :=
  u.cpu.n = 0 ∧ u.memory.n = 0 ∧ u.gpu.n = 0 ∧ u.disk.n = 0

instance (u : QVec) : Decidable (QVec.isZero u) := by
  unfold QVec.isZero; infer_instance

structure Instance where
  instance_id : String
  task_type : String
  status : Status
  start_time : Option Q
  end_time : Option Q
  preemption_time : Option Q
  last_checkpoint : Option Q
  next_checkpoint : Option Q
  is_spot : Bool
  spot_price : Q
  error_rate : Q
  required : RVec
  current_usage : QVec
  peak_usage : QVec
  final_usage : QVec
deriving DecidableEq

structure Task where
  task_id : String
  status : Status
  instances : List Instance
deriving DecidableEq

structure Job where
  job_id : String
  priority : Int
  dependencies : List String
  status : Status
  tasks : List Task
deriving DecidableEq

/-- `Task.get_total_resources`: componentwise sum of the instances'
required vectors. -/
def Task.get_total_resources (t : Task) : RVec :=
  t.instances.foldl (fun acc i => acc.add i.required) RVec.zero

/-- `Job.get_total_resources`: componentwise sum over all tasks. -/
def Job.get_total_resources (j : Job) : RVec :=
  j.tasks.foldl (fun acc t => acc.add t.get_total_resources) RVec.zero

/-- The duration range and per-dimension usage-fraction ranges of one
entry of `Instance.TASK_TYPES` (`models.py`). -/
structure TaskTypeInfo where
  durLo : Q
  durHi : Q
  lo : QVec
  hi : QVec

/-- The `Instance.TASK_TYPES` table of `models.py`: durations in seconds
and `resource_patterns` fraction ranges per dimension. -/
def taskTypes (t : String) : Option TaskTypeInfo :=
  if t = "data_ingestion" then
    some ⟨Q.ofInt 300, Q.ofInt 1800,
      ⟨⟨4, 10⟩, ⟨3, 10⟩, ⟨0, 1⟩, ⟨7, 10⟩⟩, ⟨⟨8, 10⟩, ⟨6, 10⟩, ⟨0, 1⟩, ⟨9, 10⟩⟩⟩
  else if t = "data_processing" then
    some ⟨Q.ofInt 1800, Q.ofInt 7200,
      ⟨⟨6, 10⟩, ⟨5, 10⟩, ⟨0, 1⟩, ⟨4, 10⟩⟩, ⟨⟨9, 10⟩, ⟨8, 10⟩, ⟨0, 1⟩, ⟨7, 10⟩⟩⟩
  else if t = "model_training" then
    some ⟨Q.ofInt 3600, Q.ofInt 86400,
      ⟨⟨7, 10⟩, ⟨6, 10⟩, ⟨8, 10⟩, ⟨3, 10⟩⟩, ⟨⟨10, 10⟩, ⟨9, 10⟩, ⟨10, 10⟩, ⟨6, 10⟩⟩⟩
  else if t = "model_inference" then
    some ⟨Q.ofInt 60, Q.ofInt 3600,
      ⟨⟨5, 10⟩, ⟨4, 10⟩, ⟨6, 10⟩, ⟨2, 10⟩⟩, ⟨⟨8, 10⟩, ⟨7, 10⟩, ⟨9, 10⟩, ⟨4, 10⟩⟩⟩
  else if t = "etl_pipeline" then
    some ⟨Q.ofInt 900, Q.ofInt 3600,
      ⟨⟨5, 10⟩, ⟨4, 10⟩, ⟨0, 1⟩, ⟨6, 10⟩⟩, ⟨⟨9, 10⟩, ⟨8, 10⟩, ⟨0, 1⟩, ⟨9, 10⟩⟩⟩
  else if t = "data_analytics" then
    some ⟨Q.ofInt 1800, Q.ofInt 14400,
      ⟨⟨6, 10⟩, ⟨7, 10⟩, ⟨0, 1⟩, ⟨3, 10⟩⟩, ⟨⟨9, 10⟩, ⟨9, 10⟩, ⟨0, 1⟩, ⟨6, 10⟩⟩⟩
  else if t = "batch_processing" then
    some ⟨Q.ofInt 3600, Q.ofInt 28800,
      ⟨⟨7, 10⟩, ⟨6, 10⟩, ⟨0, 1⟩, ⟨5, 10⟩⟩, ⟨⟨10, 10⟩, ⟨9, 10⟩, ⟨0, 1⟩, ⟨8, 10⟩⟩⟩
  else if t = "streaming_pipeline" then
    some ⟨Q.ofInt 43200, Q.ofInt 172800,
      ⟨⟨4, 10⟩, ⟨5, 10⟩, ⟨0, 1⟩, ⟨6, 10⟩⟩, ⟨⟨7, 10⟩, ⟨8, 10⟩, ⟨0, 1⟩, ⟨9, 10⟩⟩⟩
  else none

/-- One per-dimension step of `update_usage` when a patterns entry exists:
base usage interpolated by progress, a fluctuation draw on
`[-0.05, 0.05]`, clamped to `[0, 1]`, applied to the required amount; the
peak is updated.  Returns (new current, new peak, rng). -/
def usagePatternStep (lo hi : Q) (required : Int) (progress : Q)
    (peak : Q) (g : Rng) : Q × Q × Rng :=
  let (r, g) := g.next
  let fluctuation := Q.uniform ⟨-1, 20⟩ ⟨1, 20⟩ r
  let base := Q.add lo (Q.mul (Q.sub hi lo) progress)
  let usage := Q.max (Q.ofInt 0) (Q.min (Q.ofInt 1) (Q.add base fluctuation))
  let newCur := Q.mul (Q.ofInt required) usage
  (newCur, Q.max peak newCur, g)

/-- One per-dimension step of `update_usage` when the task type has no
patterns entry: 50-80% of the required amount. -/
def usageDefaultStep (required : Int) (peak : Q) (g : Rng) :
    Q × Q × Rng :=
  let (r, g) := g.next
  let base := Q.uniform ⟨1, 2⟩ ⟨8, 10⟩ r
  let newCur := Q.mul (Q.ofInt required) base
  (newCur, Q.max peak newCur, g)

/-- `final_usage` computed from the pattern averages (or 50% of required
when the task type is unknown). -/
def finalUsageOf (inst : Instance) : QVec :=
  match taskTypes inst.task_type with
  | some info =>
    ⟨Q.mul (Q.ofInt inst.required.cpu)
        (Q.div (Q.add info.lo.cpu info.hi.cpu) (Q.ofInt 2)),
      Q.mul (Q.ofInt inst.required.memory)
        (Q.div (Q.add info.lo.memory info.hi.memory) (Q.ofInt 2)),
      Q.mul (Q.ofInt inst.required.gpu)
        (Q.div (Q.add info.lo.gpu info.hi.gpu) (Q.ofInt 2)),
      Q.mul (Q.ofInt inst.required.disk)
        (Q.div (Q.add info.lo.disk info.hi.disk) (Q.ofInt 2))⟩
  | none =>
    ⟨Q.mul (Q.ofInt inst.required.cpu) ⟨1, 2⟩,
      Q.mul (Q.ofInt inst.required.memory) ⟨1, 2⟩,
      Q.mul (Q.ofInt inst.required.gpu) ⟨1, 2⟩,
      Q.mul (Q.ofInt inst.required.disk) ⟨1, 2⟩⟩

/-- The running branch of `Instance.update_usage`: fill missing
start/end times (a missing end time is drawn from the task type's
duration range, defaulting to one hour), compute progress, and update
the current/peak usage of the four dimensions in dictionary order. -/
def Instance.updateUsageRunning (current_time : Q) (g : Rng)
    (inst : Instance) : Instance × Rng :=
  let start := inst.start_time.getD current_time
  let endg : Q × Rng :=
    match inst.end_time with
    | some e => (e, g)
    | none =>
      match taskTypes inst.task_type with
      | some info =>
        let (r, g1) := g.next
        (Q.add start (Q.uniform info.durLo info.durHi r), g1)
      | none => (Q.add start (Q.ofInt 3600), g)
  let endT := endg.1
  let g1 := endg.2
  let total_duration := Q.sub endT start
  let elapsed_time := Q.sub current_time start
  let progress :=
    Q.min (Q.ofInt 1) (Q.max (Q.ofInt 0) (Q.div elapsed_time total_duration))
  match taskTypes inst.task_type with
  | some info =>
    let (c1, p1, g2) := usagePatternStep info.lo.cpu info.hi.cpu
      inst.required.cpu progress inst.peak_usage.cpu g1
    let (c2, p2, g3) := usagePatternStep info.lo.memory info.hi.memory
      inst.required.memory progress inst.peak_usage.memory g2
    let (c3, p3, g4) := usagePatternStep info.lo.gpu info.hi.gpu
      inst.required.gpu progress inst.peak_usage.gpu g3
    let (c4, p4, g5) := usagePatternStep info.lo.disk info.hi.disk
      inst.required.disk progress inst.peak_usage.disk g4
    ({ inst with
        start_time := some start
        end_time := some endT
        current_usage := ⟨c1, c2, c3, c4⟩
        peak_usage := ⟨p1, p2, p3, p4⟩ }, g5)
  | none =>
    let (c1, p1, g2) := usageDefaultStep inst.required.cpu
      inst.peak_usage.cpu g1
    let (c2, p2, g3) := usageDefaultStep inst.required.memory
      inst.peak_usage.memory g2
    let (c3, p3, g4) := usageDefaultStep inst.required.gpu
      inst.peak_usage.gpu g3
    let (c4, p4, g5) := usageDefaultStep inst.required.disk
      inst.peak_usage.disk g4
    ({ inst with
        start_time := some start
        end_time := some endT
        current_usage := ⟨c1, c2, c3, c4⟩
        peak_usage := ⟨p1, p2, p3, p4⟩ }, g5)

/-- `Instance.update_usage(current_time)` (`models.py`): recomputes the
usage vectors from the instance's status.  Never changes `status`. -/
def Instance.update_usage (current_time : Q) (g : Rng)
    (inst : Instance) : Instance × Rng :=
  match inst.status with
  | .running => inst.updateUsageRunning current_time g
  | .terminated | .failed | .interrupted =>
    let final :=
      if inst.final_usage.isZero then finalUsageOf inst
      else inst.final_usage
    ({ inst with final_usage := final, current_usage := final }, g)
  | _ => ({ inst with current_usage := QVec.zero }, g)

theorem Instance.updateUsageRunning_status (current_time : Q) (g : Rng)
    (inst : Instance) :
    (inst.updateUsageRunning current_time g).1.status = inst.status := by
  unfold Instance.updateUsageRunning
  rcases h : taskTypes inst.task_type with _ | info <;> simp [h]

theorem Instance.update_usage_status (current_time : Q) (g : Rng)
    (inst : Instance) :
    (Instance.update_usage current_time g inst).1.status = inst.status := by
  unfold Instance.update_usage
  cases h : inst.status <;>
    simp [h, Instance.updateUsageRunning_status]

theorem Instance.updateUsageRunning_id (current_time : Q) (g : Rng)
    (inst : Instance) :
    (inst.updateUsageRunning current_time g).1.instance_id =
      inst.instance_id := by
  unfold Instance.updateUsageRunning
  rcases h : taskTypes inst.task_type with _ | info <;> simp [h]

theorem Instance.update_usage_id (current_time : Q) (g : Rng)
    (inst : Instance) :
    (Instance.update_usage current_time g inst).1.instance_id =
      inst.instance_id := by
  unfold Instance.update_usage
  cases h : inst.status <;>
    simp [Instance.updateUsageRunning_id]

/-!
## Scheduler state
`src/src/cloudy/scheduler/scheduler.py`.  Python object aliasing (the
same `Job` object held by `all_jobs`, the queue and `running_jobs`) is
embedded by keeping the `Job` values in a single store — the `all_jobs`
list — and referring to jobs by id from the queue and the running map.
`zone_quotas` is computed in `__init__` from the pool's total vector,
which no scheduler operation ever mutates, so it is derived from
`total_resources` here.
-/

/-- One entry of the append-only `status_history` log. -/
structure LogEntry where
  job_id : String
  instance_id : String
  old_status : Status
  new_status : Status
  time : Q
deriving DecidableEq

structure Scheduler where
  resource_manager : ResourceManager
  /-- `PriorityQueue` contents as (priority, job id); `put` appends and
  `get` removes an entry of minimal priority. -/
  job_queue : List (Int × String)
  /-- `running_jobs`: job id to allocated vector, in insertion order. -/
  running_jobs : List (String × RVec)
  completed_jobs : List String
  interrupted_jobs : List String
  /-- Node list of the `networkx.DiGraph`, in insertion order. -/
  dg_nodes : List String
  /-- Edge list (dep, job) of the `networkx.DiGraph`. -/
  dg_edges : List (String × String)
  status_history : List LogEntry
  all_jobs : List Job
deriving DecidableEq

/-- `timedelta(minutes=2)`, in seconds. -/
def preemption_grace_period : Q := Q.ofInt 120

/-- `self.spot_instance_probability = 0.6`. -/
def spot_instance_probability : Q := ⟨3, 5⟩

/-- `self.instance_types['spot']['preemption_probability'] = 0.3`. -/
def spot_preemption_probability : Q := ⟨3, 10⟩

/-- `DiGraph.add_node`: append the node unless present. -/
def addNode (nodes : List String) (x : String) : List String :=
  if nodes.contains x then nodes else nodes ++ [x]

/-- `DiGraph.add_edge u v`: add missing endpoint nodes, then the edge
unless present. -/
def addEdge (nodes : List String) (edges : List (String × String))
    (u v : String) : List String × List (String × String) :=
  (addNode (addNode nodes u) v,
    if edges.contains (u, v) then edges else edges ++ [(u, v)])

/-- Kahn peeling for `nx.is_directed_acyclic_graph`: repeatedly remove a
node with no incoming edge; the graph is acyclic iff all nodes go. -/
def isDAGAux : Nat → List String → List (String × String) → Bool
  | _, [], _ => true
  | 0, _ :: _, _ => false
  | fuel + 1, x :: xs, edges =>
    match (x :: xs).find? (fun y => !(edges.any (fun e => e.2 == y))) with
    | none => false
    | some y =>
      isDAGAux fuel ((x :: xs).erase y) (edges.filter (fun e => e.1 != y))

def is_directed_acyclic_graph (nodes : List String)
    (edges : List (String × String)) : Bool :=
  isDAGAux nodes.length nodes edges

/-- `Scheduler._can_start`: every dependency id is in the completed
set. -/
def Scheduler.can_start (s : Scheduler) (job : Job) : Bool :=
  job.dependencies.all (fun dep => s.completed_jobs.contains dep)

/-- The dependency loop of `add_job`: for each dependency in order, fail
with the `DependencyError` message if no stored job has that id, else add
the edge (dep, job).  Returns the node list, edge list and error at the
point the loop stopped — a raised error keeps the mutations made so
far. -/
def addDepsLoop (all_jobs : List Job) (jid : String) :
    List String → List String → List (String × String) →
    List String × List (String × String) × Option String
  | [], nodes, edges => (nodes, edges, none)
  | dep :: rest, nodes, edges =>
    if all_jobs.any (fun j => j.job_id == dep) then
      let ne := addEdge nodes edges dep jid
      addDepsLoop all_jobs jid rest ne.1 ne.2
    else
      (nodes, edges,
        some ("Dependency " ++ dep ++ " not found for job " ++ jid))

/-- `Scheduler.add_job`: add the node; validate and add each dependency
edge; re-check acyclicity; on success append the job to `all_jobs` and
enqueue it when `_can_start`; on failure re-raise, keeping every graph
mutation made before the failing check (Python mutates
`self.dependency_graph` in place before raising). -/
def Scheduler.add_job (s : Scheduler) (job : Job) :
    Scheduler × Option String :=
  match addDepsLoop s.all_jobs job.job_id job.dependencies
      (addNode s.dg_nodes job.job_id) s.dg_edges with
  | (nodes1, edges1, some msg) =>
    ({ s with dg_nodes := nodes1, dg_edges := edges1 }, some msg)
  | (nodes1, edges1, none) =>
    if is_directed_acyclic_graph nodes1 edges1 then
      let s1 := { s with
        dg_nodes := nodes1
        dg_edges := edges1
        all_jobs := s.all_jobs ++ [job] }
      if s1.can_start job then
        ({ s1 with
            job_queue := s1.job_queue ++ [(job.priority, job.job_id)] },
          none)
      else (s1, none)
    else
      ({ s with dg_nodes := nodes1, dg_edges := edges1 },
        some ("Adding job " ++ job.job_id ++
          " would create a circular dependency"))

theorem addNode_subset (nodes : List String) (x : String) :
    nodes ⊆ addNode nodes x := by
  unfold addNode
  split
  · exact fun a ha => ha
  · exact fun a ha => List.mem_append_left _ ha

theorem mem_addNode_self (nodes : List String) (x : String) :
    x ∈ addNode nodes x := by
  unfold addNode
  split
  · exact List.mem_of_elem_eq_true (by assumption)
  · exact List.mem_append_right _ (List.mem_singleton.mpr rfl)

theorem addDepsLoop_nodes_subset (all_jobs : List Job) (jid : String) :
    ∀ (deps nodes : List String) (edges : List (String × String)),
      nodes ⊆ (addDepsLoop all_jobs jid deps nodes edges).1 := by
  intro deps
  induction deps with
  | nil => intro nodes edges; exact fun a ha => ha
  | cons dep rest ih =>
    intro nodes edges
    unfold addDepsLoop
    split
    · exact fun a ha =>
        ih _ _ (addNode_subset _ _ (addNode_subset _ _ ha))
    · exact fun a ha => ha

theorem addDepsLoop_edges_subset (all_jobs : List Job) (jid : String) :
    ∀ (deps nodes : List String) (edges : List (String × String)),
      edges ⊆ (addDepsLoop all_jobs jid deps nodes edges).2.1 := by
  intro deps
  induction deps with
  | nil => intro nodes edges; exact fun a ha => ha
  | cons dep rest ih =>
    intro nodes edges
    unfold addDepsLoop
    split
    · refine fun a ha => ih _ _ ?_
      unfold addEdge
      split
      · exact ha
      · exact List.mem_append_left _ ha
    · exact fun a ha => ha

/-- C2 counterexample: on the empty scheduler, adding job `J3` with a
dependency on the nonexistent id `nope` raises `DependencyError`, yet
`J3` remains a node of the dependency graph — the claimed atomicity
("the rejected job's id is absent from the graph afterwards") fails. -/
theorem C2_counterexample :
    ((Scheduler.add_job
        ⟨⟨⟨10, 10, 10, 10⟩, ⟨10, 10, 10, 10⟩⟩, [], [], [], [], [], [], [], []⟩
        ⟨"J3", 0, ["nope"], .waiting, []⟩).2.isSome = true) ∧
    "J3" ∈ (Scheduler.add_job
        ⟨⟨⟨10, 10, 10, 10⟩, ⟨10, 10, 10, 10⟩⟩, [], [], [], [], [], [], [], []⟩
        ⟨"J3", 0, ["nope"], .waiting, []⟩).1.dg_nodes := by
  constructor
  · decide
  · decide

/-- C2 amended: a rejected `add_job` raises `DependencyError` and leaves
`all_jobs`, the queue, the running map, the completed and interrupted
sets and the pool untouched — the job is not enqueued and not treated as
schedulable — but the graph mutation is not rolled back: the rejected
job's id is a node of the graph afterwards, and the prior nodes and edges
all remain. -/
theorem C2_add_job_rejection (s : Scheduler) (job : Job) (msg : String)
    (hrej : (s.add_job job).2 = some msg) :
    (s.add_job job).1.all_jobs = s.all_jobs ∧
    (s.add_job job).1.job_queue = s.job_queue ∧
    (s.add_job job).1.running_jobs = s.running_jobs ∧
    (s.add_job job).1.completed_jobs = s.completed_jobs ∧
    (s.add_job job).1.interrupted_jobs = s.interrupted_jobs ∧
    (s.add_job job).1.resource_manager = s.resource_manager ∧
    job.job_id ∈ (s.add_job job).1.dg_nodes ∧
    s.dg_nodes ⊆ (s.add_job job).1.dg_nodes ∧
    s.dg_edges ⊆ (s.add_job job).1.dg_edges := by
  have hn : job.job_id ∈
      (addDepsLoop s.all_jobs job.job_id job.dependencies
        (addNode s.dg_nodes job.job_id) s.dg_edges).1 :=
    addDepsLoop_nodes_subset _ _ _ _ _ (mem_addNode_self _ _)
  have hns : s.dg_nodes ⊆
      (addDepsLoop s.all_jobs job.job_id job.dependencies
        (addNode s.dg_nodes job.job_id) s.dg_edges).1 :=
    fun a ha =>
      addDepsLoop_nodes_subset _ _ _ _ _ (addNode_subset _ _ ha)
  have hes : s.dg_edges ⊆
      (addDepsLoop s.all_jobs job.job_id job.dependencies
        (addNode s.dg_nodes job.job_id) s.dg_edges).2.1 :=
    addDepsLoop_edges_subset _ _ _ _ _
  rcases hloop : addDepsLoop s.all_jobs job.job_id job.dependencies
      (addNode s.dg_nodes job.job_id) s.dg_edges with ⟨nodes1, edges1, err⟩
  rw [hloop] at hn hns hes
  cases err with
  | some m =>
    simp only [Scheduler.add_job, hloop]
    exact ⟨by trivial, by trivial, by trivial, by trivial, by trivial,
      by trivial, hn, hns, hes⟩
  | none =>
    by_cases hdag : is_directed_acyclic_graph nodes1 edges1
    · exfalso
      simp only [Scheduler.add_job, hloop, hdag, if_true] at hrej
      by_cases hcs : (Scheduler.can_start { s with
          dg_nodes := nodes1
          dg_edges := edges1
          all_jobs := s.all_jobs ++ [job] } job) <;>
        simp [hcs] at hrej
    · simp only [Scheduler.add_job, hloop, hdag, if_false]
      exact ⟨by trivial, by trivial, by trivial, by trivial, by trivial,
        by trivial, hn, hns, hes⟩

/-- C2 witness: the rejection theorem applied to the concrete `J3`
insertion of the counterexample state. -/
theorem C2_add_job_rejection_witness :
    (Scheduler.add_job
        ⟨⟨⟨10, 10, 10, 10⟩, ⟨10, 10, 10, 10⟩⟩, [], [], [], [], [], [], [], []⟩
        ⟨"J3", 0, ["nope"], .waiting, []⟩).1.all_jobs = [] ∧
    "J3" ∈ (Scheduler.add_job
        ⟨⟨⟨10, 10, 10, 10⟩, ⟨10, 10, 10, 10⟩⟩, [], [], [], [], [], [], [], []⟩
        ⟨"J3", 0, ["nope"], .waiting, []⟩).1.dg_nodes := by
  have h := C2_add_job_rejection
    ⟨⟨⟨10, 10, 10, 10⟩, ⟨10, 10, 10, 10⟩⟩, [], [], [], [], [], [], [], []⟩
    ⟨"J3", 0, ["nope"], .waiting, []⟩
    "Dependency nope not found for job J3" (by decide)
  exact ⟨h.1, h.2.2.2.2.2.2.1⟩

/-!
## Status update pass
`Scheduler.update_job_status` (`scheduler.py` lines 339-414).  The
per-instance `try` block can only fail in three ways once `update_usage`
has run: a running instance with no `end_time` (impossible after
`update_usage`, embedded as the caught `TypeError`), a preempting
instance with no `preemption_time`, and the `job_status[...]` lookup of
a status outside the six counted keys (only `pending`); each caught
failure marks the instance `failed` and counts it as `failed`.  On every
path the counted key equals the instance's final status, so the
`job_status` tally is the tally of final statuses.
-/

def findJob (jobs : List Job) (jid : String) : Option Job :=
  jobs.find? (fun j => j.job_id == jid)

/-- Write back a mutated job object: every store entry with this id (the
same Python object) sees the update. -/
def setJob (jobs : List Job) (jid : String) (j1 : Job) : List Job :=
  jobs.map (fun j => if j.job_id == jid then j1 else j)

/-- Python `set.add`. -/
def addSet (l : List String) (x : String) : List String :=
  if l.contains x then l else l ++ [x]

def isTerminal (st : Status) : Bool :=
  st == .terminated || st == .failed || st == .interrupted

/-- One instance of the `update_job_status` loop body: `update_usage`,
then the running/preempting transitions with their random draws, with
the caught per-instance errors folded in.  Returns the updated instance,
the rng, and the `log_status_change` entries appended. -/
def updStatusInstance (jid : String) (t : Q) (g : Rng)
    (inst0 : Instance) : Instance × Rng × List LogEntry :=
  let old_status := inst0.status
  let ug := Instance.update_usage t g inst0
  let inst := ug.1
  let g := ug.2
  match inst.status with
  | .running =>
    match inst.end_time with
    | none => ({ inst with status := .failed }, g, [])
    | some e =>
      if Q.le e t then
        let (r, g) := g.next
        let st := if Q.lt r ⟨9, 10⟩ then Status.terminated else Status.failed
        ({ inst with status := st }, g,
          [⟨jid, inst.instance_id, old_status, st, t⟩])
      else if inst.is_spot then
        let (r, g) := g.next
        if Q.lt r spot_preemption_probability then
          ({ inst with
              status := .preempting
              preemption_time := some (Q.add t preemption_grace_period) }, g,
            [⟨jid, inst.instance_id, old_status, .preempting, t⟩])
        else (inst, g, [])
      else (inst, g, [])
  | .preempting =>
    match inst.preemption_time with
    | none => ({ inst with status := .failed }, g, [])
    | some p =>
      if Q.le p t then
        ({ inst with status := .interrupted }, g,
          [⟨jid, inst.instance_id, .preempting, .interrupted, t⟩])
      else (inst, g, [])
  | .pending => ({ inst with status := .failed }, g, [])
  | _ => (inst, g, [])

def updStatusInstList (jid : String) (t : Q) :
    Rng → List Instance → List Instance × Rng × List LogEntry
  | g, [] => ([], g, [])
  | g, i :: rest =>
    let r1 := updStatusInstance jid t g i
    let r2 := updStatusInstList jid t r1.2.1 rest
    (r1.1 :: r2.1, r2.2.1, r1.2.2 ++ r2.2.2)

def updStatusTaskList (jid : String) (t : Q) :
    Rng → List Task → List Task × Rng × List LogEntry
  | g, [] => ([], g, [])
  | g, tk :: rest =>
    let r1 := updStatusInstList jid t g tk.instances
    let r2 := updStatusTaskList jid t r1.2.1 rest
    ({ tk with instances := r1.1 } :: r2.1, r2.2.1, r1.2.2 ++ r2.2.2)

/-- The `job_status` tally for one key over the updated tasks. -/
def countStatus (st : Status) (tasks : List Task) : Nat :=
  tasks.foldl
    (fun acc tk => acc + tk.instances.countP (fun i => i.status == st)) 0

/-- `len([i for t in job.tasks for i in t.instances])`. -/
def numInstances (tasks : List Task) : Nat :=
  tasks.foldl (fun acc tk => acc + tk.instances.length) 0

/-- The job-status derivation chain of `update_job_status` (the final
`else` keeps the previous status: no branch fires). -/
def deriveJobStatus (old : Status) (tasks : List Task) : Status :=
  if 0 < countStatus .failed tasks then .failed
  else if 0 < countStatus .interrupted tasks then .interrupted
  else if 0 < countStatus .preempting tasks then .preempting
  else if 0 < countStatus .running tasks then .running
  else if countStatus .terminated tasks = numInstances tasks then .terminated
  else old

/-- One iteration of the `update_job_status` loop over the snapshot of
`running_jobs.items()`: advance every instance, re-derive the job
status, record completion/interruption, and release resources and drop
the running entry when the job became terminal.  An id with no stored
job cannot arise through `add_job`/`schedule_next_batch` (Python holds
the job object in the map itself); such an entry is skipped. -/
def processRunningJob (t : Q) (acc : Scheduler × Rng × List String)
    (entry : String × RVec) : Scheduler × Rng × List String :=
  let s := acc.1
  let g := acc.2.1
  let doneIds := acc.2.2
  match findJob s.all_jobs entry.1 with
  | none => (s, g, doneIds)
  | some job =>
    let r := updStatusTaskList entry.1 t g job.tasks
    let tasks1 := r.1
    let g1 := r.2.1
    let logs := r.2.2
    let newStatus := deriveJobStatus job.status tasks1
    let interruptedBranch : Bool :=
      countStatus .failed tasks1 == 0 && 0 < countStatus .interrupted tasks1
    let completedBranch : Bool :=
      countStatus .failed tasks1 == 0 &&
      countStatus .interrupted tasks1 == 0 &&
      countStatus .preempting tasks1 == 0 &&
      countStatus .running tasks1 == 0 &&
      countStatus .terminated tasks1 == numInstances tasks1
    let job1 := { job with tasks := tasks1, status := newStatus }
    let s1 := { s with
      all_jobs := setJob s.all_jobs entry.1 job1
      status_history := s.status_history ++ logs
      interrupted_jobs :=
        if interruptedBranch then addSet s.interrupted_jobs entry.1
        else s.interrupted_jobs
      completed_jobs :=
        if completedBranch then addSet s.completed_jobs entry.1
        else s.completed_jobs }
    let doneIds1 := if completedBranch then doneIds ++ [entry.1] else doneIds
    if isTerminal newStatus then
      let s2 := { s1 with
        resource_manager := s1.resource_manager.release entry.2
        running_jobs := s1.running_jobs.filter (fun e => e.1 != entry.1) }
      if newStatus == .interrupted then
        ({ s2 with job_queue := s2.job_queue ++ [(job1.priority, entry.1)] },
          g1, doneIds1)
      else (s2, g1, doneIds1)
    else (s1, g1, doneIds1)

/-- `Scheduler.update_job_status(current_time)`: one status pass over the
snapshot of the running map; returns the new state, the rng and
`completed_job_ids`. -/
def Scheduler.update_job_status (t : Q) (g : Rng) (s : Scheduler) :
    Scheduler × Rng × List String :=
  s.running_jobs.foldl (processRunningJob t) (s, g, [])

/-!
## Status summary
`Scheduler.get_status_summary` (`scheduler.py` lines 416-433): a tally
over `all_jobs` into a dict with exactly the five keys below; a job
status outside them raises `KeyError`, caught by the handler that
returns the all-zero dict.
-/

structure SummaryCounts where
  waiting : Nat
  running : Nat
  terminated : Nat
  interrupted : Nat
  failed : Nat
deriving DecidableEq

def SummaryCounts.zero : SummaryCounts := ⟨0, 0, 0, 0, 0⟩

/-- `status_counts[job.status] += 1`: `none` is the `KeyError`. -/
def SummaryCounts.addJob (c : SummaryCounts) : Status → Option SummaryCounts
  | .waiting => some { c with waiting := c.waiting + 1 }
  | .running => some { c with running := c.running + 1 }
  | .terminated => some { c with terminated := c.terminated + 1 }
  | .interrupted => some { c with interrupted := c.interrupted + 1 }
  | .failed => some { c with failed := c.failed + 1 }
  | _ => none

def summaryGo : List Job → SummaryCounts → Option SummaryCounts
  | [], c => some c
  | j :: rest, c =>
    match c.addJob j.status with
    | none => none
    | some c1 => summaryGo rest c1

def Scheduler.get_status_summary (s : Scheduler) : SummaryCounts :=
  match summaryGo s.all_jobs SummaryCounts.zero with
  | some c => c
  | none => SummaryCounts.zero

/-- The five keys of the summary dict. -/
def isSummaryKey (st : Status) : Bool :=
  st == .waiting || st == .running || st == .terminated ||
    st == .interrupted || st == .failed

theorem addJob_none_of_not_key (c : SummaryCounts) (st : Status)
    (h : isSummaryKey st = false) : c.addJob st = none := by
  cases st <;> simp_all [isSummaryKey, SummaryCounts.addJob]

theorem summaryGo_none (l : List Job) : ∀ c : SummaryCounts,
    (∃ j ∈ l, isSummaryKey j.status = false) → summaryGo l c = none := by
  induction l with
  | nil => intro c h; simp at h
  | cons j rest ih =>
    intro c h
    by_cases hj : isSummaryKey j.status
    · rcases h with ⟨x, hx, hbad⟩
      rcases List.mem_cons.mp hx with h1 | h1
      · exact absurd hj (by simp [h1] at hbad ⊢; exact hbad)
      · cases hst : j.status <;>
          simp [isSummaryKey, hst] at hj <;>
          simp [summaryGo, SummaryCounts.addJob, hst,
            ih _ ⟨x, h1, hbad⟩]
    · simp [summaryGo,
        addJob_none_of_not_key c j.status (Bool.not_eq_true _ ▸ eq_false_of_ne_true hj)]

theorem summaryGo_counts (l : List Job) : ∀ c : SummaryCounts,
    (∀ j ∈ l, isSummaryKey j.status = true) →
    summaryGo l c = some
      ⟨c.waiting + l.countP (fun j => j.status == .waiting),
       c.running + l.countP (fun j => j.status == .running),
       c.terminated + l.countP (fun j => j.status == .terminated),
       c.interrupted + l.countP (fun j => j.status == .interrupted),
       c.failed + l.countP (fun j => j.status == .failed)⟩ := by
  induction l with
  | nil => intro c h; simp [summaryGo]
  | cons j rest ih =>
    intro c h
    have hj := h j (List.mem_cons_self _ _)
    have hrest : ∀ x ∈ rest, isSummaryKey x.status = true :=
      fun x hx => h x (List.mem_cons_of_mem _ hx)
    cases hst : j.status <;> simp [isSummaryKey, hst] at hj <;>
      simp [summaryGo, SummaryCounts.addJob, hst, ih _ hrest,
        List.countP_cons] <;> omega

/-- C10: if any stored job's status lies outside the five summary keys
(for example `preempting`), `get_status_summary` returns the all-zero
dict whatever the population; otherwise it returns the exact per-status
counts over `all_jobs`. -/
theorem C10_status_summary (s : Scheduler) :
    ((∃ j ∈ s.all_jobs, isSummaryKey j.status = false) →
      s.get_status_summary = SummaryCounts.zero) ∧
    ((∀ j ∈ s.all_jobs, isSummaryKey j.status = true) →
      s.get_status_summary =
        ⟨s.all_jobs.countP (fun j => j.status == .waiting),
         s.all_jobs.countP (fun j => j.status == .running),
         s.all_jobs.countP (fun j => j.status == .terminated),
         s.all_jobs.countP (fun j => j.status == .interrupted),
         s.all_jobs.countP (fun j => j.status == .failed)⟩) := by
  constructor
  · intro h
    unfold Scheduler.get_status_summary
    rw [summaryGo_none _ _ h]
  · intro h
    unfold Scheduler.get_status_summary
    rw [summaryGo_counts _ _ h]
    simp [SummaryCounts.zero]

/-- C10 witness: a store of three jobs (one `waiting`, two `running`)
counts exactly; adding a `preempting` job collapses the whole summary to
zero although the other jobs are unchanged. -/
theorem C10_status_summary_witness :
    Scheduler.get_status_summary
      ⟨⟨⟨1, 1, 1, 1⟩, ⟨1, 1, 1, 1⟩⟩, [], [], [], [], [], [], [],
        [⟨"a", 0, [], .waiting, []⟩, ⟨"b", 0, [], .running, []⟩,
         ⟨"c", 0, [], .running, []⟩]⟩ = ⟨1, 2, 0, 0, 0⟩ ∧
    Scheduler.get_status_summary
      ⟨⟨⟨1, 1, 1, 1⟩, ⟨1, 1, 1, 1⟩⟩, [], [], [], [], [], [], [],
        [⟨"a", 0, [], .waiting, []⟩, ⟨"b", 0, [], .running, []⟩,
         ⟨"c", 0, [], .running, []⟩, ⟨"d", 0, [], .preempting, []⟩]⟩ =
      SummaryCounts.zero := by
  constructor
  · rw [(C10_status_summary _).2 (by decide)]
    decide
  · exact (C10_status_summary _).1 ⟨⟨"d", 0, [], .preempting, []⟩,
      by decide, by decide⟩

theorem updStatusInstList_nil (jid : String) (t : Q) (g : Rng) :
    updStatusInstList jid t g [] = ([], g, []) := rfl

theorem updStatusTaskList_all_empty (jid : String) (t : Q) :
    ∀ (tasks : List Task) (g : Rng),
      (∀ tk ∈ tasks, tk.instances = []) →
      updStatusTaskList jid t g tasks = (tasks, g, []) := by
  intro tasks
  induction tasks with
  | nil => intro g h; rfl
  | cons tk rest ih =>
    intro g h
    have htk : tk.instances = [] := h tk (List.mem_cons_self _ _)
    have hrest := ih g (fun x hx => h x (List.mem_cons_of_mem _ hx))
    unfold updStatusTaskList
    rw [htk, updStatusInstList_nil]
    simp only [hrest]
    have heta : { tk with instances := ([] : List Instance) } = tk := by
      cases tk; simp_all
    rw [heta]
    simp

theorem countStatus_all_empty (st : Status) :
    ∀ tasks : List Task, (∀ tk ∈ tasks, tk.instances = []) →
      countStatus st tasks = 0 := by
  have aux : ∀ (tasks : List Task) (a : Nat),
      (∀ tk ∈ tasks, tk.instances = []) →
      tasks.foldl
        (fun acc tk => acc + tk.instances.countP (fun i => i.status == st))
        a = a := by
    intro tasks
    induction tasks with
    | nil => intro a _; rfl
    | cons tk rest ih =>
      intro a h
      have htk : tk.instances = [] := h tk (List.mem_cons_self _ _)
      simp only [List.foldl_cons, htk, List.countP_nil, Nat.add_zero]
      exact ih a (fun x hx => h x (List.mem_cons_of_mem _ hx))
  intro tasks h
  exact aux tasks 0 h

theorem numInstances_all_empty :
    ∀ tasks : List Task, (∀ tk ∈ tasks, tk.instances = []) →
      numInstances tasks = 0 := by
  have aux : ∀ (tasks : List Task) (a : Nat),
      (∀ tk ∈ tasks, tk.instances = []) →
      tasks.foldl (fun acc tk => acc + tk.instances.length) a = a := by
    intro tasks
    induction tasks with
    | nil => intro a _; rfl
    | cons tk rest ih =>
      intro a h
      have htk : tk.instances = [] := h tk (List.mem_cons_self _ _)
      simp only [List.foldl_cons, htk, List.length_nil, Nat.add_zero]
      exact ih a (fun x hx => h x (List.mem_cons_of_mem _ hx))
  intro tasks h
  exact aux tasks 0 h

theorem mem_addSet_self (l : List String) (x : String) : x ∈ addSet l x := by
  unfold addSet
  split
  · exact List.mem_of_elem_eq_true (by assumption)
  · exact List.mem_append_right _ (List.mem_singleton.mpr rfl)

theorem findJob_setJob_self (k : String) (j1 : Job) (hid : j1.job_id = k) :
    ∀ jobs : List Job, (findJob jobs k).isSome →
      findJob (setJob jobs k j1) k = some j1 := by
  intro jobs
  induction jobs with
  | nil => intro h; simp [findJob] at h
  | cons x rest ih =>
    intro h
    by_cases hx : x.job_id == k
    · simp only [setJob, List.map_cons, hx, if_true, findJob, List.find?_cons]
      simp [hid]
    · have hx' : (x.job_id == k) = false := by
        simpa using hx
      have hx2 : ¬ (x.job_id == k) = true := by simp [hx']
      unfold findJob at h
      simp only [List.find?_cons, hx'] at h
      unfold findJob setJob
      rw [List.map_cons, if_neg hx2]
      simp only [List.find?_cons, hx']
      exact ih h

/-- C9: a running-map entry whose job has zero instances across all its
tasks is swept by the first `update_job_status` call: the zero counts
make the `terminated` branch fire (`0 == len([])`), so the job is marked
terminated, its id joins the completed set and the returned completed
ids, its recorded vector is released, and the entry leaves the running
map — although no instance of it ever ran. -/
theorem C9_zero_instance_job (s : Scheduler) (t : Q) (g : Rng)
    (jid : String) (res : RVec) (job : Job)
    (hrun : s.running_jobs = [(jid, res)])
    (hfind : findJob s.all_jobs jid = some job)
    (hempty : ∀ tk ∈ job.tasks, tk.instances = []) :
    (Scheduler.update_job_status t g s).1.running_jobs = [] ∧
    jid ∈ (Scheduler.update_job_status t g s).1.completed_jobs ∧
    (∃ j1, findJob (Scheduler.update_job_status t g s).1.all_jobs jid =
        some j1 ∧ j1.status = .terminated) ∧
    (Scheduler.update_job_status t g s).1.resource_manager.available_resources
      = s.resource_manager.available_resources.add res ∧
    (Scheduler.update_job_status t g s).2.2 = [jid] := by
  have htl := updStatusTaskList_all_empty jid t job.tasks g hempty
  have hderive : deriveJobStatus job.status job.tasks = .terminated := by
    unfold deriveJobStatus
    simp [countStatus_all_empty _ _ hempty, numInstances_all_empty _ hempty]
  have hjid : job.job_id = jid := by
    have := List.find?_some hfind
    simpa using this
  have hupd : Scheduler.update_job_status t g s =
      processRunningJob t (s, g, []) (jid, res) := by
    unfold Scheduler.update_job_status
    rw [hrun]
    rfl
  rw [hupd]
  unfold processRunningJob
  simp only [hfind, htl, hderive]
  have hcb : (countStatus .failed job.tasks == 0 &&
      countStatus .interrupted job.tasks == 0 &&
      countStatus .preempting job.tasks == 0 &&
      countStatus .running job.tasks == 0 &&
      (countStatus .terminated job.tasks == numInstances job.tasks)) = true := by
    simp [countStatus_all_empty _ _ hempty, numInstances_all_empty _ hempty]
  have hib : (countStatus .failed job.tasks == 0 &&
      decide (0 < countStatus .interrupted job.tasks)) = false := by
    simp [countStatus_all_empty _ _ hempty]
  simp only [hcb, hib, isTerminal, if_true, if_false]
  refine ⟨?_, ?_, ?_, ?_, ?_⟩
  · simp [hrun]
  · simp [mem_addSet_self]
  · refine ⟨{ job with tasks := job.tasks, status := .terminated }, ?_, rfl⟩
    have : (findJob s.all_jobs jid).isSome := by rw [hfind]; rfl
    simpa using findJob_setJob_self jid _ (by simpa using hjid) s.all_jobs this
  · simp [ResourceManager.release]
  · simp

/-- C9 witness: a one-job state whose running job `J1` has a single task
with no instances. -/
theorem C9_zero_instance_job_witness :
    (Scheduler.update_job_status (Q.ofInt 0) ⟨[]⟩
        ⟨⟨⟨10, 10, 10, 10⟩, ⟨6, 10, 10, 10⟩⟩, [], [("J1", ⟨4, 0, 0, 0⟩)],
          [], [], ["J1"], [], [],
          [⟨"J1", 0, [], .running, [⟨"T1", .running, []⟩]⟩]⟩).1.running_jobs
      = [] ∧
    "J1" ∈ (Scheduler.update_job_status (Q.ofInt 0) ⟨[]⟩
        ⟨⟨⟨10, 10, 10, 10⟩, ⟨6, 10, 10, 10⟩⟩, [], [("J1", ⟨4, 0, 0, 0⟩)],
          [], [], ["J1"], [], [],
          [⟨"J1", 0, [], .running, [⟨"T1", .running, []⟩]⟩]⟩).1.completed_jobs
      ∧
    (∃ j1, findJob (Scheduler.update_job_status (Q.ofInt 0) ⟨[]⟩
        ⟨⟨⟨10, 10, 10, 10⟩, ⟨6, 10, 10, 10⟩⟩, [], [("J1", ⟨4, 0, 0, 0⟩)],
          [], [], ["J1"], [], [],
          [⟨"J1", 0, [], .running, [⟨"T1", .running, []⟩]⟩]⟩).1.all_jobs "J1"
        = some j1 ∧ j1.status = .terminated) ∧
    (Scheduler.update_job_status (Q.ofInt 0) ⟨[]⟩
        ⟨⟨⟨10, 10, 10, 10⟩, ⟨6, 10, 10, 10⟩⟩, [], [("J1", ⟨4, 0, 0, 0⟩)],
          [], [], ["J1"], [], [],
          [⟨"J1", 0, [], .running, [⟨"T1", .running, []⟩]⟩]⟩).1.resource_manager.available_resources
      = RVec.add ⟨6, 10, 10, 10⟩ ⟨4, 0, 0, 0⟩ ∧
    (Scheduler.update_job_status (Q.ofInt 0) ⟨[]⟩
        ⟨⟨⟨10, 10, 10, 10⟩, ⟨6, 10, 10, 10⟩⟩, [], [("J1", ⟨4, 0, 0, 0⟩)],
          [], [], ["J1"], [], [],
          [⟨"J1", 0, [], .running, [⟨"T1", .running, []⟩]⟩]⟩).2.2 = ["J1"] :=
  C9_zero_instance_job _ (Q.ofInt 0) ⟨[]⟩ "J1" ⟨4, 0, 0, 0⟩
    ⟨"J1", 0, [], .running, [⟨"T1", .running, []⟩]⟩
    (by decide) (by decide) (by decide)

/-- All instances of a job, in task order (the Python nested loops). -/
def jobInstances (j : Job) : List Instance :=
  j.tasks.foldr (fun tk acc => tk.instances ++ acc) []

def findInst (j : Job) (iid : String) : Option Instance :=
  (jobInstances j).find? (fun i => i.instance_id == iid)

/-- The status of instance `iid` of job `jid` as seen in the store. -/
def instStatus (s : Scheduler) (jid iid : String) : Option Status :=
  (findJob s.all_jobs jid).bind fun j =>
    (findInst j iid).map fun i => i.status

theorem Instance.updateUsageRunning_end_time (t : Q) (g : Rng)
    (inst : Instance) (e : Q) (hend : inst.end_time = some e) :
    (inst.updateUsageRunning t g).1.end_time = some e := by
  unfold Instance.updateUsageRunning
  rcases h : taskTypes inst.task_type with _ | info <;> simp [h, hend]

theorem Instance.updateUsageRunning_spot (t : Q) (g : Rng)
    (inst : Instance) :
    (inst.updateUsageRunning t g).1.is_spot = inst.is_spot := by
  unfold Instance.updateUsageRunning
  rcases h : taskTypes inst.task_type with _ | info <;> simp [h]

theorem Instance.update_usage_spot (t : Q) (g : Rng) (inst : Instance) :
    (Instance.update_usage t g inst).1.is_spot = inst.is_spot := by
  unfold Instance.update_usage
  cases h : inst.status <;>
    simp [Instance.updateUsageRunning_spot]

theorem Instance.update_usage_end_time_running (t : Q) (g : Rng)
    (inst : Instance) (e : Q) (hst : inst.status = .running)
    (hend : inst.end_time = some e) :
    (Instance.update_usage t g inst).1.end_time = some e := by
  unfold Instance.update_usage
  rw [hst]
  exact Instance.updateUsageRunning_end_time t g inst e hend

/-- C8 amended: the status pass never consults `error_rate`.  A running
instance whose `end_time` lies in the future keeps running when it is
not spot-tagged — whatever its error rate; if it is spot-tagged it moves
to `preempting` (not `interrupted`) exactly when the next draw is below
the spot preemption probability 0.3, and keeps running otherwise. -/
theorem C8_no_error_rate_interruption (jid : String) (t : Q) (g : Rng)
    (inst : Instance) (e : Q) (hst : inst.status = .running)
    (hend : inst.end_time = some e) (hfut : ¬ Q.le e t) :
    (inst.is_spot = false →
      (updStatusInstance jid t g inst).1.status = .running) ∧
    (inst.is_spot = true →
      (Q.lt ((Instance.update_usage t g inst).2.next.1)
          spot_preemption_probability →
        (updStatusInstance jid t g inst).1.status = .preempting) ∧
      (¬ Q.lt ((Instance.update_usage t g inst).2.next.1)
          spot_preemption_probability →
        (updStatusInstance jid t g inst).1.status = .running)) := by
  have h1 : (Instance.update_usage t g inst).1.status = .running := by
    rw [Instance.update_usage_status, hst]
  have h2 : (Instance.update_usage t g inst).1.end_time = some e :=
    Instance.update_usage_end_time_running t g inst e hst hend
  have h3 : (Instance.update_usage t g inst).1.is_spot = inst.is_spot :=
    Instance.update_usage_spot t g inst
  constructor
  · intro hspot
    unfold updStatusInstance
    simp only [h1, h2, h3, hspot, hfut, if_false]
    simp [hfut]
    exact h1
  · intro hspot
    constructor
    · intro hdraw
      unfold updStatusInstance
      simp only [h1, h2, h3, hspot]
      simp [hfut, hdraw]
    · intro hdraw
      unfold updStatusInstance
      simp only [h1, h2, h3, hspot]
      simp [hfut, hdraw]
      exact h1

/-- C8 counterexample: a non-spot running instance with fixed error rate
0.97 (above the claimed interruption threshold 0.95) and `end_time` in
the future is still `running` after a full `update_job_status` tick —
the scheduler code never reads `error_rate`, so no interruption
happens. -/
theorem C8_counterexample :
    Q.lt ⟨95, 100⟩
      (Instance.error_rate
        ⟨"I1", "unknown", .running, some (Q.ofInt 0), some (Q.ofInt 1000),
          none, none, none, false, Q.ofInt 0, ⟨97, 100⟩, ⟨1, 0, 0, 0⟩,
          QVec.zero, QVec.zero, QVec.zero⟩) ∧
    instStatus
      (Scheduler.update_job_status (Q.ofInt 100)
        ⟨[⟨1, 2⟩, ⟨1, 2⟩, ⟨1, 2⟩, ⟨1, 2⟩]⟩
        ⟨⟨⟨10, 10, 10, 10⟩, ⟨9, 10, 10, 10⟩⟩, [], [("J1", ⟨1, 0, 0, 0⟩)],
          [], [], ["J1"], [], [],
          [⟨"J1", 0, [], .running,
            [⟨"T1", .running,
              [⟨"I1", "unknown", .running, some (Q.ofInt 0),
                some (Q.ofInt 1000), none, none, none, false, Q.ofInt 0,
                ⟨97, 100⟩, ⟨1, 0, 0, 0⟩, QVec.zero, QVec.zero,
                QVec.zero⟩]⟩]⟩]⟩).1
      "J1" "I1" = some .running := by
  constructor
  · decide
  · decide

/-- C8 witness: the amended theorem applied to the counterexample's
instance. -/
theorem C8_no_error_rate_interruption_witness :
    (updStatusInstance "J1" (Q.ofInt 100)
        ⟨[⟨1, 2⟩, ⟨1, 2⟩, ⟨1, 2⟩, ⟨1, 2⟩]⟩
        ⟨"I1", "unknown", .running, some (Q.ofInt 0), some (Q.ofInt 1000),
          none, none, none, false, Q.ofInt 0, ⟨97, 100⟩, ⟨1, 0, 0, 0⟩,
          QVec.zero, QVec.zero, QVec.zero⟩).1.status = .running :=
  (C8_no_error_rate_interruption "J1" (Q.ofInt 100)
      ⟨[⟨1, 2⟩, ⟨1, 2⟩, ⟨1, 2⟩, ⟨1, 2⟩]⟩
      ⟨"I1", "unknown", .running, some (Q.ofInt 0), some (Q.ofInt 1000),
        none, none, none, false, Q.ofInt 0, ⟨97, 100⟩, ⟨1, 0, 0, 0⟩,
        QVec.zero, QVec.zero, QVec.zero⟩
      (Q.ofInt 1000) rfl rfl (by decide)).1 rfl

theorem mem_addSet_iff (l : List String) (x y : String) :
    x ∈ addSet l y ↔ x ∈ l ∨ x = y := by
  unfold addSet
  split
  · constructor
    · exact fun h => Or.inl h
    · rintro (h | rfl)
      · exact h
      · exact List.mem_of_elem_eq_true (by assumption)
  · simp

theorem not_mem_filter_keys (l : List (String × RVec)) (jid : String) :
    jid ∉ (l.filter (fun e => e.1 != jid)).map Prod.fst := by
  intro h
  rcases List.mem_map.mp h with ⟨e, he, hfst⟩
  have := List.of_mem_filter he
  simp [hfst] at this

theorem mem_filter_keys_of_ne (l : List (String × RVec)) (jid x : String)
    (hne : x ≠ jid) :
    x ∈ (l.filter (fun e => e.1 != jid)).map Prod.fst ↔
      x ∈ l.map Prod.fst := by
  constructor
  · intro h
    rcases List.mem_map.mp h with ⟨e, he, hfst⟩
    exact List.mem_map.mpr ⟨e, List.mem_of_mem_filter he, hfst⟩
  · intro h
    rcases List.mem_map.mp h with ⟨e, he, hfst⟩
    refine List.mem_map.mpr ⟨e, List.mem_filter.mpr ⟨he, ?_⟩, hfst⟩
    simp [hfst, hne]

theorem findJob_setJob_ne (k jid : String) (j1 : Job)
    (hj1 : j1.job_id = k) (hne : jid ≠ k) :
    ∀ jobs : List Job, findJob (setJob jobs k j1) jid = findJob jobs jid := by
  intro jobs
  induction jobs with
  | nil => rfl
  | cons x rest ih =>
    by_cases hx : (x.job_id == k) = true
    · have hxk : x.job_id = k := by simpa using hx
      have hxj : (x.job_id == jid) = false := by
        simp [hxk]; exact fun h => hne h.symm
      have hj1j : (j1.job_id == jid) = false := by
        simp [hj1]; exact fun h => hne h.symm
      unfold setJob findJob
      rw [List.map_cons, if_pos hx]
      simp only [List.find?_cons, hj1j, hxj]
      exact ih
    · have hx' : (x.job_id == k) = false := by simpa using hx
      unfold setJob findJob
      rw [List.map_cons, if_neg hx]
      simp only [List.find?_cons]
      cases hxj : x.job_id == jid
      · exact ih
      · rfl

theorem processRunningJob_frame (t : Q) (acc : Scheduler × Rng × List String)
    (k : String) (res : RVec) (jid : String) (hne : jid ≠ k) :
    findJob (processRunningJob t acc (k, res)).1.all_jobs jid =
      findJob acc.1.all_jobs jid ∧
    (jid ∈ ((processRunningJob t acc (k, res)).1.job_queue.map Prod.snd) ↔
      jid ∈ acc.1.job_queue.map Prod.snd) ∧
    (jid ∈ (processRunningJob t acc (k, res)).1.completed_jobs ↔
      jid ∈ acc.1.completed_jobs) ∧
    (jid ∈ (processRunningJob t acc (k, res)).1.interrupted_jobs ↔
      jid ∈ acc.1.interrupted_jobs) ∧
    (jid ∈ ((processRunningJob t acc (k, res)).1.running_jobs.map Prod.fst) ↔
      jid ∈ acc.1.running_jobs.map Prod.fst) := by
  unfold processRunningJob
  cases hf : findJob acc.1.all_jobs k with
  | none => simp [hf]
  | some job =>
    have hjobid : job.job_id = k := by simpa using List.find?_some hf
    simp only [hf]
    refine ⟨?_, ?_, ?_, ?_, ?_⟩ <;>
      (split <;> (try split) <;> (try split) <;> (try split)) <;>
      simp [findJob_setJob_ne, hne, hjobid, mem_addSet_iff,
        mem_filter_keys_of_ne, List.map_append]

theorem foldl_processRunningJob_frame (t : Q) (jid : String) :
    ∀ (l : List (String × RVec)) (acc : Scheduler × Rng × List String),
      (∀ e ∈ l, e.1 ≠ jid) →
      findJob ((l.foldl (processRunningJob t) acc)).1.all_jobs jid =
        findJob acc.1.all_jobs jid ∧
      (jid ∈ ((l.foldl (processRunningJob t) acc)).1.job_queue.map Prod.snd ↔
        jid ∈ acc.1.job_queue.map Prod.snd) ∧
      (jid ∈ ((l.foldl (processRunningJob t) acc)).1.completed_jobs ↔
        jid ∈ acc.1.completed_jobs) ∧
      (jid ∈ ((l.foldl (processRunningJob t) acc)).1.interrupted_jobs ↔
        jid ∈ acc.1.interrupted_jobs) ∧
      (jid ∈ ((l.foldl (processRunningJob t) acc)).1.running_jobs.map Prod.fst
        ↔ jid ∈ acc.1.running_jobs.map Prod.fst) := by
  intro l
  induction l with
  | nil =>
    intro acc h
    exact ⟨rfl, Iff.rfl, Iff.rfl, Iff.rfl, Iff.rfl⟩
  | cons e rest ih =>
    intro acc h
    have hne : jid ≠ e.1 :=
      fun hEq => (h e (List.mem_cons_self _ _)) hEq.symm
    obtain ⟨f1, f2, f3, f4, f5⟩ :=
      processRunningJob_frame t acc e.1 e.2 jid hne
    obtain ⟨g1, g2, g3, g4, g5⟩ :=
      ih (processRunningJob t acc e)
        (fun x hx => h x (List.mem_cons_of_mem _ hx))
    rw [List.foldl_cons]
    exact ⟨g1.trans f1, g2.trans f2, g3.trans f3, g4.trans f4, g5.trans f5⟩

theorem processRunningJob_self (t : Q) (acc : Scheduler × Rng × List String)
    (jid : String) (res : RVec) (job : Job)
    (hf : findJob acc.1.all_jobs jid = some job)
    (hnt : isTerminal job.status = false) :
    ∃ j1, findJob (processRunningJob t acc (jid, res)).1.all_jobs jid =
        some j1 ∧
      ((isTerminal j1.status = false ∧
        (processRunningJob t acc (jid, res)).1.running_jobs =
          acc.1.running_jobs ∧
        (processRunningJob t acc (jid, res)).1.completed_jobs =
          acc.1.completed_jobs ∧
        (processRunningJob t acc (jid, res)).1.interrupted_jobs =
          acc.1.interrupted_jobs ∧
        (processRunningJob t acc (jid, res)).1.job_queue =
          acc.1.job_queue) ∨
       (j1.status = .terminated ∧
        (processRunningJob t acc (jid, res)).1.running_jobs =
          acc.1.running_jobs.filter (fun e => e.1 != jid) ∧
        (processRunningJob t acc (jid, res)).1.completed_jobs =
          addSet acc.1.completed_jobs jid ∧
        (processRunningJob t acc (jid, res)).1.interrupted_jobs =
          acc.1.interrupted_jobs ∧
        (processRunningJob t acc (jid, res)).1.job_queue =
          acc.1.job_queue) ∨
       (j1.status = .interrupted ∧
        (processRunningJob t acc (jid, res)).1.running_jobs =
          acc.1.running_jobs.filter (fun e => e.1 != jid) ∧
        (processRunningJob t acc (jid, res)).1.completed_jobs =
          acc.1.completed_jobs ∧
        (processRunningJob t acc (jid, res)).1.interrupted_jobs =
          addSet acc.1.interrupted_jobs jid ∧
        (processRunningJob t acc (jid, res)).1.job_queue =
          acc.1.job_queue ++ [(j1.priority, jid)]) ∨
       (j1.status = .failed ∧
        (processRunningJob t acc (jid, res)).1.running_jobs =
          acc.1.running_jobs.filter (fun e => e.1 != jid) ∧
        (processRunningJob t acc (jid, res)).1.completed_jobs =
          acc.1.completed_jobs ∧
        (processRunningJob t acc (jid, res)).1.interrupted_jobs =
          acc.1.interrupted_jobs ∧
        (processRunningJob t acc (jid, res)).1.job_queue =
          acc.1.job_queue)) := by
  have hjobid : job.job_id = jid := by simpa using List.find?_some hf
  have hsome : (findJob acc.1.all_jobs jid).isSome := by rw [hf]; rfl
  have hnta : ¬ job.status = .terminated ∧ ¬ job.status = .failed ∧
      ¬ job.status = .interrupted := by
    cases hst : job.status <;> simp_all [isTerminal]
  simp only [processRunningJob, hf]
  set ts := (updStatusTaskList jid t acc.2.1 job.tasks).1 with hts
  have hfind1 : ∀ st : Status,
      findJob (setJob acc.1.all_jobs jid
        { job with tasks := ts, status := st }) jid =
      some { job with tasks := ts, status := st } := by
    intro st
    exact findJob_setJob_self jid _ (by simp [hjobid]) acc.1.all_jobs hsome
  by_cases h1 : 0 < countStatus .failed ts
  · have h1' : ¬ countStatus .failed ts = 0 := by omega
    refine ⟨{ job with tasks := ts, status := .failed }, ?_, ?_⟩
    · simp only [deriveJobStatus, if_pos h1]
      simp [isTerminal, h1', hfind1 .failed]
    · refine Or.inr (Or.inr (Or.inr ⟨rfl, ?_⟩))
      simp only [deriveJobStatus, if_pos h1]
      simp [isTerminal, h1']
  · have h1' : countStatus .failed ts = 0 := by omega
    by_cases h2 : 0 < countStatus .interrupted ts
    · have h2' : ¬ countStatus .interrupted ts = 0 := by omega
      refine ⟨{ job with tasks := ts, status := .interrupted }, ?_, ?_⟩
      · simp only [deriveJobStatus, if_neg (by omega : ¬ 0 < countStatus .failed ts), if_pos h2]
        simp [isTerminal, h1', h2, hfind1 .interrupted]
      · refine Or.inr (Or.inr (Or.inl ⟨rfl, ?_⟩))
        simp only [deriveJobStatus, if_neg (by omega : ¬ 0 < countStatus .failed ts), if_pos h2]
        simp [isTerminal, h1', h2, h2']
    · have h2' : countStatus .interrupted ts = 0 := by omega
      by_cases h3 : 0 < countStatus .preempting ts
      · have h3' : ¬ countStatus .preempting ts = 0 := by omega
        refine ⟨{ job with tasks := ts, status := .preempting }, ?_, ?_⟩
        · simp only [deriveJobStatus, if_neg (by omega : ¬ 0 < countStatus .failed ts),
            if_neg (by omega : ¬ 0 < countStatus .interrupted ts), if_pos h3]
          simp [isTerminal, h1', h2', h3', hfind1 .preempting]
        · refine Or.inl ⟨rfl, ?_⟩
          simp only [deriveJobStatus, if_neg (by omega : ¬ 0 < countStatus .failed ts),
            if_neg (by omega : ¬ 0 < countStatus .interrupted ts), if_pos h3]
          simp [isTerminal, h1', h2', h3']
      · have h3' : countStatus .preempting ts = 0 := by omega
        by_cases h4 : 0 < countStatus .running ts
        · have h4' : ¬ countStatus .running ts = 0 := by omega
          refine ⟨{ job with tasks := ts, status := .running }, ?_, ?_⟩
          · simp only [deriveJobStatus, if_neg (by omega : ¬ 0 < countStatus .failed ts),
              if_neg (by omega : ¬ 0 < countStatus .interrupted ts),
              if_neg (by omega : ¬ 0 < countStatus .preempting ts), if_pos h4]
            simp [isTerminal, h1', h2', h3', h4', hfind1 .running]
          · refine Or.inl ⟨rfl, ?_⟩
            simp only [deriveJobStatus, if_neg (by omega : ¬ 0 < countStatus .failed ts),
              if_neg (by omega : ¬ 0 < countStatus .interrupted ts),
              if_neg (by omega : ¬ 0 < countStatus .preempting ts), if_pos h4]
            simp [isTerminal, h1', h2', h3', h4']
        · have h4' : countStatus .running ts = 0 := by omega
          by_cases h5 : countStatus .terminated ts = numInstances ts
          · refine ⟨{ job with tasks := ts, status := .terminated }, ?_, ?_⟩
            · simp only [deriveJobStatus, if_neg (by omega : ¬ 0 < countStatus .failed ts),
                if_neg (by omega : ¬ 0 < countStatus .interrupted ts),
                if_neg (by omega : ¬ 0 < countStatus .preempting ts),
                if_neg (by omega : ¬ 0 < countStatus .running ts), if_pos h5]
              simp [isTerminal, h1', h2', h3', h4', h5, hfind1 .terminated]
            · refine Or.inr (Or.inl ⟨rfl, ?_⟩)
              simp only [deriveJobStatus, if_neg (by omega : ¬ 0 < countStatus .failed ts),
                if_neg (by omega : ¬ 0 < countStatus .interrupted ts),
                if_neg (by omega : ¬ 0 < countStatus .preempting ts),
                if_neg (by omega : ¬ 0 < countStatus .running ts), if_pos h5]
              simp [isTerminal, h1', h2', h3', h4', h5]
          · refine ⟨{ job with tasks := ts, status := job.status }, ?_, ?_⟩
            · simp only [deriveJobStatus, if_neg (by omega : ¬ 0 < countStatus .failed ts),
                if_neg (by omega : ¬ 0 < countStatus .interrupted ts),
                if_neg (by omega : ¬ 0 < countStatus .preempting ts),
                if_neg (by omega : ¬ 0 < countStatus .running ts), if_neg h5]
              simp [isTerminal, hnta.1, hnta.2.1, hnta.2.2, h1', h2', h3',
                h4', h5, hfind1 job.status]
            · refine Or.inl ⟨hnt, ?_⟩
              simp only [deriveJobStatus, if_neg (by omega : ¬ 0 < countStatus .failed ts),
                if_neg (by omega : ¬ 0 < countStatus .interrupted ts),
                if_neg (by omega : ¬ 0 < countStatus .preempting ts),
                if_neg (by omega : ¬ 0 < countStatus .running ts), if_neg h5]
              simp [isTerminal, hnta.1, hnta.2.1, hnta.2.2, h1', h2', h3',
                h4', h5]

/-- C5 amended: the per-tick disposition of a previously-running job.
After `update_job_status`, a job that was in the running map is either
still running (non-terminal status), or terminated and recorded in the
completed set only, or interrupted and recorded in BOTH the interrupted
set and the pending queue, or failed and recorded in NONE of the four
collections — so the claimed partition invariant fails in two ways:
failed jobs are dropped from all four collections, and interrupted jobs
occupy two of them at once. -/
theorem C5_running_job_disposition (s : Scheduler) (t : Q) (g : Rng)
    (jid : String) (res : RVec) (job : Job)
    (hmem : (jid, res) ∈ s.running_jobs)
    (hnodup : (s.running_jobs.map Prod.fst).Nodup)
    (hfind : findJob s.all_jobs jid = some job)
    (hnt : isTerminal job.status = false)
    (hq0 : jid ∉ s.job_queue.map Prod.snd)
    (hc0 : jid ∉ s.completed_jobs)
    (hi0 : jid ∉ s.interrupted_jobs) :
    ∃ j1, findJob (Scheduler.update_job_status t g s).1.all_jobs jid =
        some j1 ∧
      ((isTerminal j1.status = false ∧
        jid ∈ (Scheduler.update_job_status t g s).1.running_jobs.map Prod.fst ∧
        jid ∉ (Scheduler.update_job_status t g s).1.completed_jobs ∧
        jid ∉ (Scheduler.update_job_status t g s).1.interrupted_jobs ∧
        jid ∉ (Scheduler.update_job_status t g s).1.job_queue.map Prod.snd) ∨
       (j1.status = .terminated ∧
        jid ∈ (Scheduler.update_job_status t g s).1.completed_jobs ∧
        jid ∉ (Scheduler.update_job_status t g s).1.running_jobs.map Prod.fst ∧
        jid ∉ (Scheduler.update_job_status t g s).1.interrupted_jobs ∧
        jid ∉ (Scheduler.update_job_status t g s).1.job_queue.map Prod.snd) ∨
       (j1.status = .interrupted ∧
        jid ∈ (Scheduler.update_job_status t g s).1.interrupted_jobs ∧
        jid ∈ (Scheduler.update_job_status t g s).1.job_queue.map Prod.snd ∧
        jid ∉ (Scheduler.update_job_status t g s).1.running_jobs.map Prod.fst ∧
        jid ∉ (Scheduler.update_job_status t g s).1.completed_jobs) ∨
       (j1.status = .failed ∧
        jid ∉ (Scheduler.update_job_status t g s).1.running_jobs.map Prod.fst ∧
        jid ∉ (Scheduler.update_job_status t g s).1.completed_jobs ∧
        jid ∉ (Scheduler.update_job_status t g s).1.interrupted_jobs ∧
        jid ∉ (Scheduler.update_job_status t g s).1.job_queue.map Prod.snd)) := by
  obtain ⟨l1, l2, hsplit⟩ := List.append_of_mem hmem
  have hkeys : jid ∉ l1.map Prod.fst ∧ jid ∉ l2.map Prod.fst := by
    rw [hsplit, List.map_append, List.map_cons] at hnodup
    have hmid := List.nodup_middle.mp hnodup
    have hnotin := (List.nodup_cons.mp hmid).1
    rw [List.mem_append] at hnotin
    exact ⟨fun h => hnotin (Or.inl h), fun h => hnotin (Or.inr h)⟩
  have hl1 : ∀ e ∈ l1, e.1 ≠ jid := by
    intro e he hEq
    exact hkeys.1 (List.mem_map.mpr ⟨e, he, hEq⟩)
  have hl2 : ∀ e ∈ l2, e.1 ≠ jid := by
    intro e he hEq
    exact hkeys.2 (List.mem_map.mpr ⟨e, he, hEq⟩)
  have hupd : Scheduler.update_job_status t g s =
      List.foldl (processRunningJob t)
        (processRunningJob t (List.foldl (processRunningJob t) (s, g, []) l1)
          (jid, res)) l2 := by
    unfold Scheduler.update_job_status
    rw [hsplit, List.foldl_append, List.foldl_cons]
  obtain ⟨a1, a2, a3, a4, a5⟩ :=
    foldl_processRunningJob_frame t jid l1 (s, g, []) hl1
  obtain ⟨j1, hj1, hD⟩ := processRunningJob_self t
    (List.foldl (processRunningJob t) (s, g, []) l1) jid res job
    (a1.trans hfind) hnt
  obtain ⟨b1, b2, b3, b4, b5⟩ := foldl_processRunningJob_frame t jid l2
    (processRunningJob t (List.foldl (processRunningJob t) (s, g, []) l1)
      (jid, res)) hl2
  rw [hupd]
  refine ⟨j1, b1.trans hj1, ?_⟩
  have hjmem : jid ∈ (List.foldl (processRunningJob t) (s, g, []) l1).1.running_jobs.map Prod.fst :=
    a5.mpr (List.mem_map.mpr ⟨(jid, res), hmem, rfl⟩)
  have hjq : jid ∉ (List.foldl (processRunningJob t) (s, g, []) l1).1.job_queue.map Prod.snd :=
    fun h => hq0 (a2.mp h)
  have hjc : jid ∉ (List.foldl (processRunningJob t) (s, g, []) l1).1.completed_jobs :=
    fun h => hc0 (a3.mp h)
  have hji : jid ∉ (List.foldl (processRunningJob t) (s, g, []) l1).1.interrupted_jobs :=
    fun h => hi0 (a4.mp h)
  rcases hD with ⟨hst, hr, hc, hi, hq⟩ | ⟨hst, hr, hc, hi, hq⟩ |
    ⟨hst, hr, hc, hi, hq⟩ | ⟨hst, hr, hc, hi, hq⟩
  · exact Or.inl ⟨hst, b5.mpr (hr ▸ hjmem), fun h => hjc (hc ▸ b3.mp h),
      fun h => hji (hi ▸ b4.mp h), fun h => hjq (hq ▸ b2.mp h)⟩
  · refine Or.inr (Or.inl ⟨hst, b3.mpr (hc ▸ mem_addSet_self _ _), ?_, ?_, ?_⟩)
    · intro h
      exact not_mem_filter_keys _ jid (hr ▸ b5.mp h)
    · exact fun h => hji (hi ▸ b4.mp h)
    · exact fun h => hjq (hq ▸ b2.mp h)
  · refine Or.inr (Or.inr (Or.inl ⟨hst, b4.mpr (hi ▸ mem_addSet_self _ _), ?_, ?_, ?_⟩))
    · refine b2.mpr ?_
      rw [hq, List.map_append, List.mem_append]
      exact Or.inr (by simp)
    · intro h
      exact not_mem_filter_keys _ jid (hr ▸ b5.mp h)
    · exact fun h => hjc (hc ▸ b3.mp h)
  · refine Or.inr (Or.inr (Or.inr ⟨hst, ?_, ?_, ?_, ?_⟩))
    · intro h
      exact not_mem_filter_keys _ jid (hr ▸ b5.mp h)
    · exact fun h => hjc (hc ▸ b3.mp h)
    · exact fun h => hji (hi ▸ b4.mp h)
    · exact fun h => hjq (hq ▸ b2.mp h)

/-- C5 counterexample: a running job whose single instance hits its end
time and draws the 10% failure outcome (draw 0.95 ≥ 0.9) becomes
`failed`: afterwards its id is in none of the pending queue, the running
map, the completed set or the interrupted set, although it was added and
is still stored — the claimed partition of all added ids fails. -/
theorem C5_counterexample :
    (Scheduler.update_job_status (Q.ofInt 100)
        ⟨[⟨1, 2⟩, ⟨1, 2⟩, ⟨1, 2⟩, ⟨1, 2⟩, ⟨95, 100⟩]⟩
        ⟨⟨⟨10, 10, 10, 10⟩, ⟨9, 10, 10, 10⟩⟩, [], [("J1", ⟨1, 0, 0, 0⟩)],
          [], [], ["J1"], [], [],
          [⟨"J1", 0, [], .running,
            [⟨"T1", .running,
              [⟨"I1", "unknown", .running, some (Q.ofInt 0),
                some (Q.ofInt 50), none, none, none, false, Q.ofInt 0,
                ⟨1, 2⟩, ⟨1, 0, 0, 0⟩, QVec.zero, QVec.zero,
                QVec.zero⟩]⟩]⟩]⟩).1.running_jobs = [] ∧
    (Scheduler.update_job_status (Q.ofInt 100)
        ⟨[⟨1, 2⟩, ⟨1, 2⟩, ⟨1, 2⟩, ⟨1, 2⟩, ⟨95, 100⟩]⟩
        ⟨⟨⟨10, 10, 10, 10⟩, ⟨9, 10, 10, 10⟩⟩, [], [("J1", ⟨1, 0, 0, 0⟩)],
          [], [], ["J1"], [], [],
          [⟨"J1", 0, [], .running,
            [⟨"T1", .running,
              [⟨"I1", "unknown", .running, some (Q.ofInt 0),
                some (Q.ofInt 50), none, none, none, false, Q.ofInt 0,
                ⟨1, 2⟩, ⟨1, 0, 0, 0⟩, QVec.zero, QVec.zero,
                QVec.zero⟩]⟩]⟩]⟩).1.completed_jobs = [] ∧
    (Scheduler.update_job_status (Q.ofInt 100)
        ⟨[⟨1, 2⟩, ⟨1, 2⟩, ⟨1, 2⟩, ⟨1, 2⟩, ⟨95, 100⟩]⟩
        ⟨⟨⟨10, 10, 10, 10⟩, ⟨9, 10, 10, 10⟩⟩, [], [("J1", ⟨1, 0, 0, 0⟩)],
          [], [], ["J1"], [], [],
          [⟨"J1", 0, [], .running,
            [⟨"T1", .running,
              [⟨"I1", "unknown", .running, some (Q.ofInt 0),
                some (Q.ofInt 50), none, none, none, false, Q.ofInt 0,
                ⟨1, 2⟩, ⟨1, 0, 0, 0⟩, QVec.zero, QVec.zero,
                QVec.zero⟩]⟩]⟩]⟩).1.interrupted_jobs = [] ∧
    (Scheduler.update_job_status (Q.ofInt 100)
        ⟨[⟨1, 2⟩, ⟨1, 2⟩, ⟨1, 2⟩, ⟨1, 2⟩, ⟨95, 100⟩]⟩
        ⟨⟨⟨10, 10, 10, 10⟩, ⟨9, 10, 10, 10⟩⟩, [], [("J1", ⟨1, 0, 0, 0⟩)],
          [], [], ["J1"], [], [],
          [⟨"J1", 0, [], .running,
            [⟨"T1", .running,
              [⟨"I1", "unknown", .running, some (Q.ofInt 0),
                some (Q.ofInt 50), none, none, none, false, Q.ofInt 0,
                ⟨1, 2⟩, ⟨1, 0, 0, 0⟩, QVec.zero, QVec.zero,
                QVec.zero⟩]⟩]⟩]⟩).1.job_queue = [] ∧
    ((findJob (Scheduler.update_job_status (Q.ofInt 100)
        ⟨[⟨1, 2⟩, ⟨1, 2⟩, ⟨1, 2⟩, ⟨1, 2⟩, ⟨95, 100⟩]⟩
        ⟨⟨⟨10, 10, 10, 10⟩, ⟨9, 10, 10, 10⟩⟩, [], [("J1", ⟨1, 0, 0, 0⟩)],
          [], [], ["J1"], [], [],
          [⟨"J1", 0, [], .running,
            [⟨"T1", .running,
              [⟨"I1", "unknown", .running, some (Q.ofInt 0),
                some (Q.ofInt 50), none, none, none, false, Q.ofInt 0,
                ⟨1, 2⟩, ⟨1, 0, 0, 0⟩, QVec.zero, QVec.zero,
                QVec.zero⟩]⟩]⟩]⟩).1.all_jobs "J1").map Job.status
      = some .failed) := by
  refine ⟨by decide, by decide, by decide, by decide, by decide⟩

/-- C5 witness: the disposition theorem applied to a state with one
running job whose instance keeps running (end time in the future). -/
theorem C5_running_job_disposition_witness :
    ∃ j1, findJob (Scheduler.update_job_status (Q.ofInt 100)
        ⟨[⟨1, 2⟩, ⟨1, 2⟩, ⟨1, 2⟩, ⟨1, 2⟩]⟩
        ⟨⟨⟨10, 10, 10, 10⟩, ⟨9, 10, 10, 10⟩⟩, [], [("J1", ⟨1, 0, 0, 0⟩)],
          [], [], ["J1"], [], [],
          [⟨"J1", 0, [], .running,
            [⟨"T1", .running,
              [⟨"I1", "unknown", .running, some (Q.ofInt 0),
                some (Q.ofInt 1000), none, none, none, false, Q.ofInt 0,
                ⟨1, 2⟩, ⟨1, 0, 0, 0⟩, QVec.zero, QVec.zero,
                QVec.zero⟩]⟩]⟩]⟩).1.all_jobs "J1" = some j1 := by
  have h := C5_running_job_disposition
    ⟨⟨⟨10, 10, 10, 10⟩, ⟨9, 10, 10, 10⟩⟩, [], [("J1", ⟨1, 0, 0, 0⟩)],
      [], [], ["J1"], [], [],
      [⟨"J1", 0, [], .running,
        [⟨"T1", .running,
          [⟨"I1", "unknown", .running, some (Q.ofInt 0),
            some (Q.ofInt 1000), none, none, none, false, Q.ofInt 0,
            ⟨1, 2⟩, ⟨1, 0, 0, 0⟩, QVec.zero, QVec.zero, QVec.zero⟩]⟩]⟩]⟩
    (Q.ofInt 100) ⟨[⟨1, 2⟩, ⟨1, 2⟩, ⟨1, 2⟩, ⟨1, 2⟩]⟩ "J1" ⟨1, 0, 0, 0⟩
    ⟨"J1", 0, [], .running,
      [⟨"T1", .running,
        [⟨"I1", "unknown", .running, some (Q.ofInt 0),
          some (Q.ofInt 1000), none, none, none, false, Q.ofInt 0,
          ⟨1, 2⟩, ⟨1, 0, 0, 0⟩, QVec.zero, QVec.zero, QVec.zero⟩]⟩]⟩
    (by decide) (by decide) (by decide) (by decide) (by decide) (by decide)
    (by decide)
  exact ⟨h.choose, h.choose_spec.1⟩

/-- `DependencyGraph.successors(job_id)` (the networkx query §4.2 of the
spec expects `update_job_status` to make; the scheduler source never
calls it). -/
def successors (edges : List (String × String)) (jid : String) :
    List String :=
  (edges.filter (fun e => e.1 == jid)).map Prod.snd

theorem processRunningJob_queue_growth (t : Q)
    (acc : Scheduler × Rng × List String) (k : String) (res : RVec) :
    ∀ e ∈ (processRunningJob t acc (k, res)).1.job_queue,
      e ∈ acc.1.job_queue ∨ e.2 = k := by
  unfold processRunningJob
  cases hf : findJob acc.1.all_jobs k with
  | none =>
    simp only [hf]
    intro e he
    exact Or.inl he
  | some job =>
    simp only [hf]
    intro e he
    split at he
    · split at he
      · rcases List.mem_append.mp he with h | h
        · exact Or.inl h
        · simp only [List.mem_singleton] at h
          exact Or.inr (by simp [h])
      · exact Or.inl he
    · exact Or.inl he

theorem foldl_queue_growth (t : Q) :
    ∀ (l : List (String × RVec)) (acc : Scheduler × Rng × List String),
      ∀ e ∈ (l.foldl (processRunningJob t) acc).1.job_queue,
        e ∈ acc.1.job_queue ∨ e.2 ∈ l.map Prod.fst := by
  intro l
  induction l with
  | nil => intro acc e he; exact Or.inl he
  | cons x rest ih =>
    intro acc e he
    rw [List.foldl_cons] at he
    rcases ih (processRunningJob t acc x) e he with h | h
    · rcases processRunningJob_queue_growth t acc x.1 x.2 e h with h2 | h2
      · exact Or.inl h2
      · exact Or.inr (by simp [h2])
    · exact Or.inr (List.mem_cons_of_mem _ h)

/-- C6 amended: `update_job_status` records a completed job in the
completed set, but performs no dependency-graph successor query and
enqueues no dependent job: every entry of the pending queue after the
call was already queued before it, or carries the id of a job from the
running map (the re-queue of an interrupted job).  A waiting dependent
whose dependencies just completed is not enqueued. -/
theorem C6_no_successor_enqueue (s : Scheduler) (t : Q) (g : Rng) :
    ∀ e ∈ (Scheduler.update_job_status t g s).1.job_queue,
      e ∈ s.job_queue ∨ e.2 ∈ s.running_jobs.map Prod.fst := by
  intro e he
  exact foldl_queue_growth t s.running_jobs (s, g, []) e he

/-- C6 counterexample: `J1` (running, due, drawing the success outcome)
completes and joins the completed set; its graph successor `J2` is
waiting with its single dependency `J1` now satisfied (`can_start`
holds), yet the pending queue stays empty — no successor is enqueued
during the call. -/
theorem C6_counterexample :
    "J1" ∈ (Scheduler.update_job_status (Q.ofInt 100)
        ⟨[⟨1, 2⟩, ⟨1, 2⟩, ⟨1, 2⟩, ⟨1, 2⟩, ⟨1, 2⟩]⟩
        ⟨⟨⟨10, 10, 10, 10⟩, ⟨9, 10, 10, 10⟩⟩, [], [("J1", ⟨1, 0, 0, 0⟩)],
          [], [], ["J1", "J2"], [("J1", "J2")], [],
          [⟨"J1", 0, [], .running,
            [⟨"T1", .running,
              [⟨"I1", "unknown", .running, some (Q.ofInt 0),
                some (Q.ofInt 50), none, none, none, false, Q.ofInt 0,
                ⟨1, 2⟩, ⟨1, 0, 0, 0⟩, QVec.zero, QVec.zero, QVec.zero⟩]⟩]⟩,
           ⟨"J2", 0, ["J1"], .waiting, []⟩]⟩).1.completed_jobs ∧
    successors (Scheduler.update_job_status (Q.ofInt 100)
        ⟨[⟨1, 2⟩, ⟨1, 2⟩, ⟨1, 2⟩, ⟨1, 2⟩, ⟨1, 2⟩]⟩
        ⟨⟨⟨10, 10, 10, 10⟩, ⟨9, 10, 10, 10⟩⟩, [], [("J1", ⟨1, 0, 0, 0⟩)],
          [], [], ["J1", "J2"], [("J1", "J2")], [],
          [⟨"J1", 0, [], .running,
            [⟨"T1", .running,
              [⟨"I1", "unknown", .running, some (Q.ofInt 0),
                some (Q.ofInt 50), none, none, none, false, Q.ofInt 0,
                ⟨1, 2⟩, ⟨1, 0, 0, 0⟩, QVec.zero, QVec.zero, QVec.zero⟩]⟩]⟩,
           ⟨"J2", 0, ["J1"], .waiting, []⟩]⟩).1.dg_edges "J1" = ["J2"] ∧
    Scheduler.can_start (Scheduler.update_job_status (Q.ofInt 100)
        ⟨[⟨1, 2⟩, ⟨1, 2⟩, ⟨1, 2⟩, ⟨1, 2⟩, ⟨1, 2⟩]⟩
        ⟨⟨⟨10, 10, 10, 10⟩, ⟨9, 10, 10, 10⟩⟩, [], [("J1", ⟨1, 0, 0, 0⟩)],
          [], [], ["J1", "J2"], [("J1", "J2")], [],
          [⟨"J1", 0, [], .running,
            [⟨"T1", .running,
              [⟨"I1", "unknown", .running, some (Q.ofInt 0),
                some (Q.ofInt 50), none, none, none, false, Q.ofInt 0,
                ⟨1, 2⟩, ⟨1, 0, 0, 0⟩, QVec.zero, QVec.zero, QVec.zero⟩]⟩]⟩,
           ⟨"J2", 0, ["J1"], .waiting, []⟩]⟩).1
      ⟨"J2", 0, ["J1"], .waiting, []⟩ = true ∧
    (Scheduler.update_job_status (Q.ofInt 100)
        ⟨[⟨1, 2⟩, ⟨1, 2⟩, ⟨1, 2⟩, ⟨1, 2⟩, ⟨1, 2⟩]⟩
        ⟨⟨⟨10, 10, 10, 10⟩, ⟨9, 10, 10, 10⟩⟩, [], [("J1", ⟨1, 0, 0, 0⟩)],
          [], [], ["J1", "J2"], [("J1", "J2")], [],
          [⟨"J1", 0, [], .running,
            [⟨"T1", .running,
              [⟨"I1", "unknown", .running, some (Q.ofInt 0),
                some (Q.ofInt 50), none, none, none, false, Q.ofInt 0,
                ⟨1, 2⟩, ⟨1, 0, 0, 0⟩, QVec.zero, QVec.zero, QVec.zero⟩]⟩]⟩,
           ⟨"J2", 0, ["J1"], .waiting, []⟩]⟩).1.job_queue = [] := by
  refine ⟨by decide, by decide, by decide, by decide⟩

/-- C6 witness: the queue-growth theorem applied to a state with an
empty running map and one queued entry. -/
theorem C6_no_successor_enqueue_witness :
    ((0 : Int), "A") ∈ [((0 : Int), "A")] ∨
      "A" ∈ ([] : List (String × RVec)).map Prod.fst :=
  C6_no_successor_enqueue
    ⟨⟨⟨1, 1, 1, 1⟩, ⟨1, 1, 1, 1⟩⟩, [((0 : Int), "A")], [], [], [], [], [],
      [], []⟩
    (Q.ofInt 0) ⟨[]⟩ ((0 : Int), "A") (by decide)

/-!
## Admission pass
`Scheduler.schedule_next_batch` (`scheduler.py` lines 110-216) and its
helpers (lines 218-337).  `wallNow` models the `datetime.now()` wall
clock that `_get_job_progress` reads (distinct from the simulated
`current_time` argument `t`).  The Python `PriorityQueue.get` returns an
entry of minimal priority; ties among equal priorities follow the heap's
internal order, modelled here as the first queued entry of minimal
priority.
-/

/-- `Scheduler._check_zone_quotas`: the request is within 80% of total
capacity for each quota dimension.  The `zone_quotas` dict built in
`__init__` holds only `cpu`, `memory` and `gpu` — `disk` is absent, so
it is never checked. -/
def Scheduler.check_zone_quotas (s : Scheduler) (required : RVec) : Prop :=
  Q.le (Q.ofInt required.cpu)
    (Q.mul (Q.ofInt s.resource_manager.total_resources.cpu) ⟨8, 10⟩) ∧
  Q.le (Q.ofInt required.memory)
    (Q.mul (Q.ofInt s.resource_manager.total_resources.memory) ⟨8, 10⟩) ∧
  Q.le (Q.ofInt required.gpu)
    (Q.mul (Q.ofInt s.resource_manager.total_resources.gpu) ⟨8, 10⟩)

instance (s : Scheduler) (v : RVec) :
    Decidable (s.check_zone_quotas v) := by
  unfold Scheduler.check_zone_quotas; infer_instance

/-- `Scheduler._is_spot_instance`: some instance of the job is
spot-tagged. -/
def is_spot_instance (j : Job) : Bool :=
  j.tasks.any (fun tk => tk.instances.any (fun i => i.is_spot))

/-- One instance's contribution to `_get_job_progress`: 1 for a
terminal-successful instance, partial elapsed fraction for a running one
with both timestamps (Python `min(1.0, elapsed/total)`, no lower
clamp). -/
def instProgressContribution (wallNow : Q) (i : Instance) : Q :=
  match i.status with
  | .terminated | .failed => Q.ofInt 1
  | .running =>
    match i.end_time, i.start_time with
    | some e, some st =>
      Q.min (Q.ofInt 1) (Q.div (Q.sub wallNow st) (Q.sub e st))
    | _, _ => Q.ofInt 0
  | _ => Q.ofInt 0

/-- `Scheduler._get_job_progress` (reads the wall clock). -/
def Scheduler.get_job_progress (wallNow : Q) (j : Job) : Q :=
  let insts := jobInstances j
  if insts.length = 0 then Q.ofInt 0
  else
    Q.div
      (insts.foldl
        (fun acc i => Q.add acc (instProgressContribution wallNow i))
        (Q.ofInt 0))
      (Q.ofInt insts.length)

/-- `Scheduler._should_preempt`. -/
def should_preempt (wallNow : Q) (running_job new_job : Job) : Bool :=
  if new_job.priority < running_job.priority then
    if Q.lt ⟨8, 10⟩ (Scheduler.get_job_progress wallNow running_job) then
      false
    else if is_spot_instance running_job then true
    else decide (new_job.priority + 2 < running_job.priority)
  else false

def job_current_usage_sum (j : Job) : Q :=
  (jobInstances j).foldl
    (fun acc i => Q.add acc (QVec.sum i.current_usage)) (Q.ofInt 0)

/-- `Scheduler._calculate_preemption_cost`. -/
def calculate_preemption_cost (wallNow : Q) (j : Job) : Q :=
  Q.add
    (Q.add
      (Q.add (Q.mul (Scheduler.get_job_progress wallNow j) (Q.ofInt 50))
        (Q.mul (job_current_usage_sum j) ⟨3, 10⟩))
      (Q.mul (Q.div (Q.ofInt 1) (Q.ofInt (j.priority + 1))) (Q.ofInt 20)))
    (Q.mul (Q.ofInt (if is_spot_instance j then 1 else 2)) (Q.ofInt 10))

/-- The candidate-collection loop of `schedule_next_batch` (lines
135-143): running jobs of numerically greater priority that are
spot-tagged or pass `_should_preempt`; also accumulates the resources
they hold. -/
def collectPreemptable (s : Scheduler) (wallNow : Q) (newJob : Job)
    (prio : Int) : List (String × Job × RVec) × RVec :=
  s.running_jobs.foldl
    (fun acc entry =>
      match findJob s.all_jobs entry.1 with
      | none => acc
      | some rj =>
        if prio < rj.priority then
          if is_spot_instance rj || should_preempt wallNow rj newJob then
            (acc.1 ++ [(entry.1, rj, entry.2)], acc.2.add entry.2)
          else acc
        else acc)
    ([], RVec.zero)

/-- Stable ascending insertion by key (the behaviour of Python's stable
`list.sort(key=...)` for a total preorder). -/
def insertSorted (key : α → Q) (x : α) : List α → List α
  | [] => [x]
  | y :: ys =>
    if Q.lt (key y) (key x) then y :: insertSorted key x ys
    else x :: y :: ys

def sortByKey (key : α → Q) : List α → List α
  | [] => []
  | x :: xs => insertSorted key x (sortByKey key xs)

/-- The greedy eviction prefix (lines 156-167): victims taken in cost
order until every dimension of the outstanding requirement is covered
(the `break` guard runs before each eviction). -/
def victimPrefix (needed : RVec) :
    List (String × Job × RVec) → List (String × Job × RVec)
  | [] => []
  | v :: rest =>
    if needed.cpu ≤ 0 ∧ needed.memory ≤ 0 ∧ needed.gpu ≤ 0 ∧
        needed.disk ≤ 0 then []
    else v :: victimPrefix (needed.sub v.2.2) rest

/-- One instance of `_schedule_preemption`: a running instance is moved
to `preempting` with `preemption_time = now + grace`; a spot instance is
checkpointed first. -/
def preemptInstance (jid : String) (t : Q) (inst : Instance) :
    Instance × List LogEntry :=
  if inst.status == .running then
    let inst1 :=
      if inst.is_spot then
        { inst with
            last_checkpoint := some t
            next_checkpoint := some (Q.add t (Q.ofInt 300)) }
      else inst
    ({ inst1 with
        status := .preempting
        preemption_time := some (Q.add t preemption_grace_period) },
      [⟨jid, inst.instance_id, .running, .preempting, t⟩])
  else (inst, [])

def preemptInstList (jid : String) (t : Q) :
    List Instance → List Instance × List LogEntry
  | [] => ([], [])
  | i :: rest =>
    let r1 := preemptInstance jid t i
    let r2 := preemptInstList jid t rest
    (r1.1 :: r2.1, r1.2 ++ r2.2)

def preemptTaskList (jid : String) (t : Q) :
    List Task → List Task × List LogEntry
  | [] => ([], [])
  | tk :: rest =>
    let r1 := preemptInstList jid t tk.instances
    let r2 := preemptTaskList jid t rest
    ({ tk with instances := r1.1 } :: r2.1, r1.2 ++ r2.2)

/-- `Scheduler._schedule_preemption` applied to the stored job. -/
def Scheduler.schedule_preemption (t : Q) (s : Scheduler) (jid : String) :
    Scheduler :=
  match findJob s.all_jobs jid with
  | none => s
  | some job =>
    let r := preemptTaskList jid t job.tasks
    { s with
        all_jobs := setJob s.all_jobs jid { job with tasks := r.1 }
        status_history := s.status_history ++ r.2 }

/-- Lines 129-167: when the request does not fit, collect candidates;
only if their pooled resources dominate the request in every dimension,
preempt the greedy prefix in cost order; otherwise do nothing. -/
def preemptionPhase (wallNow t : Q) (s : Scheduler) (newJob : Job)
    (prio : Int) (total : RVec) : Scheduler :=
  let col := collectPreemptable s wallNow newJob prio
  if RVec.le total col.2 then
    (victimPrefix total
        (sortByKey (fun e => calculate_preemption_cost wallNow e.2.1)
          col.1)).foldl
      (fun st v => Scheduler.schedule_preemption t st v.1) s
  else s

/-- One instance start (lines 174-195): a waiting or interrupted
instance becomes running; the spot draw may tag it (never untag), a
spot-price draw and the duration draws follow, and the end time is
`now + minutes(duration)`. -/
def startInstance (jid : String) (t : Q) (g : Rng) (inst : Instance) :
    Instance × Rng × List LogEntry :=
  if inst.status == .waiting || inst.status == .interrupted then
    let old := inst.status
    let (r1, g1) := g.next
    let spotResult : Bool × Q × Rng :=
      if Q.lt r1 spot_instance_probability then
        let (r2, g2) := g1.next
        (true, Q.mul ⟨1, 10⟩ (Q.uniform ⟨8, 10⟩ (Q.ofInt 2) r2), g2)
      else (inst.is_spot, inst.spot_price, g1)
    let isSpot := spotResult.1
    let (r3, g3) := spotResult.2.2.next
    let baseDur : Int := max 15
      (Q.trunc (Q.mul (QVec.sum inst.current_usage)
        (Q.uniform ⟨8, 10⟩ ⟨12, 10⟩ r3)))
    let durg : Int × Rng :=
      if isSpot then
        let (r4, g4) := g3.next
        (Q.trunc (Q.mul (Q.ofInt baseDur) (Q.uniform ⟨1, 2⟩ (Q.ofInt 1) r4)),
          g4)
      else (baseDur, g3)
    ({ inst with
        status := .running
        start_time := some t
        is_spot := isSpot
        spot_price := spotResult.2.1
        end_time := some (Q.add t (Q.ofInt (60 * durg.1)))
        next_checkpoint :=
          if isSpot then some (Q.add t (Q.ofInt 300))
          else inst.next_checkpoint },
      durg.2, [⟨jid, inst.instance_id, old, .running, t⟩])
  else (inst, g, [])

def startInstList (jid : String) (t : Q) :
    Rng → List Instance → List Instance × Rng × List LogEntry
  | g, [] => ([], g, [])
  | g, i :: rest =>
    let r1 := startInstance jid t g i
    let r2 := startInstList jid t r1.2.1 rest
    (r1.1 :: r2.1, r2.2.1, r1.2.2 ++ r2.2.2)

def startTaskList (jid : String) (t : Q) :
    Rng → List Task → List Task × Rng × List LogEntry
  | g, [] => ([], g, [])
  | g, tk :: rest =>
    let r1 := startInstList jid t g tk.instances
    let r2 := startTaskList jid t r1.2.1 rest
    ({ tk with instances := r1.1 } :: r2.1, r2.2.1, r1.2.2 ++ r2.2.2)

/-- `running_jobs[job.job_id] = (job, total)`: dict assignment. -/
def setRunning (l : List (String × RVec)) (k : String) (res : RVec) :
    List (String × RVec) :=
  if l.any (fun e => e.1 == k) then
    l.map (fun e => if e.1 == k then (k, res) else e)
  else l ++ [(k, res)]

def minPrio (x : Int × String) (xs : List (Int × String)) : Int :=
  xs.foldl (fun acc e => if e.1 < acc then e.1 else acc) x.1

def removeFirstWithPrio (m : Int) :
    List (Int × String) →
      Option ((Int × String) × List (Int × String))
  | [] => none
  | x :: xs =>
    if x.1 = m then some (x, xs)
    else (removeFirstWithPrio m xs).map (fun r => (r.1, x :: r.2))

/-- `PriorityQueue.get`: remove an entry of minimal priority. -/
def popMin (q : List (Int × String)) :
    Option ((Int × String) × List (Int × String)) :=
  match q with
  | [] => none
  | x :: xs => removeFirstWithPrio (minPrio x xs) (x :: xs)

/-- The drain loop of `schedule_next_batch`.  Fuel bounds the number of
iterations; the caller passes the queue length, which suffices because
every iteration removes one entry and the skipped entries are re-queued
only after the loop. -/
def batchLoop (wallNow t : Q) :
    Nat → Scheduler → Rng → List String → List (Int × String) →
      Scheduler × Rng × List String × List (Int × String)
  | 0, s, g, scheduled, skipped => (s, g, scheduled, skipped)
  | fuel + 1, s, g, scheduled, skipped =>
    match popMin s.job_queue with
    | none => (s, g, scheduled, skipped)
    | some ((prio, jid), rest) =>
      let s0 := { s with job_queue := rest }
      match findJob s0.all_jobs jid with
      | none => batchLoop wallNow t fuel s0 g scheduled
          (skipped ++ [(prio, jid)])
      | some job =>
        let total := job.get_total_resources
        if s0.check_zone_quotas total then
          let s1 :=
            if s0.resource_manager.can_allocate total then s0
            else preemptionPhase wallNow t s0 job prio total
          if s1.resource_manager.can_allocate total then
            let s2 := { s1 with
              resource_manager := (s1.resource_manager.allocate total).1 }
            let r := startTaskList jid t g job.tasks
            let job1 := { job with tasks := r.1 }
            let s3 := { s2 with
              all_jobs := setJob s2.all_jobs jid job1
              status_history := s2.status_history ++ r.2.2
              running_jobs := setRunning s2.running_jobs jid total }
            batchLoop wallNow t fuel s3 r.2.1 (scheduled ++ [jid]) skipped
          else
            batchLoop wallNow t fuel s1 g scheduled
              (skipped ++ [(prio, jid)])
        else
          batchLoop wallNow t fuel s0 g scheduled
            (skipped ++ [(prio, jid)])

/-- `Scheduler.schedule_next_batch(current_time)`: drain the queue,
re-queue the skipped entries in order, return the admitted job ids. -/
def Scheduler.schedule_next_batch (wallNow t : Q) (g : Rng)
    (s : Scheduler) : Scheduler × Rng × List String :=
  let r := batchLoop wallNow t s.job_queue.length s g [] []
  ({ r.1 with job_queue := r.1.job_queue ++ r.2.2.2 }, r.2.1, r.2.2.1)

theorem Q.not_le_iff (a b : Q) : ¬ Q.le a b ↔ Q.lt b a := by
  unfold Q.le Q.lt
  omega

/-- C7 amended: `_check_zone_quotas` fails exactly when the request
exceeds 80% of total capacity in `cpu`, `memory` or `gpu`; the `disk`
dimension is not part of the quota dict and is ignored entirely, so a
deferral decision never depends on it. -/
theorem C7_zone_quota_dimensions (s : Scheduler) (req : RVec) :
    (¬ s.check_zone_quotas req ↔
      (Q.lt (Q.mul (Q.ofInt s.resource_manager.total_resources.cpu) ⟨8, 10⟩)
        (Q.ofInt req.cpu) ∨
       Q.lt (Q.mul (Q.ofInt s.resource_manager.total_resources.memory)
          ⟨8, 10⟩) (Q.ofInt req.memory) ∨
       Q.lt (Q.mul (Q.ofInt s.resource_manager.total_resources.gpu) ⟨8, 10⟩)
        (Q.ofInt req.gpu))) ∧
    (∀ d : Int, s.check_zone_quotas { req with disk := d } ↔
      s.check_zone_quotas req) := by
  constructor
  · unfold Scheduler.check_zone_quotas
    rw [not_and_or, not_and_or, Q.not_le_iff, Q.not_le_iff, Q.not_le_iff]
  · intro d
    exact Iff.rfl

/-- C7 counterexample: a pending job demanding the pool's entire disk
capacity (100 of 100, far above the 80% quota) is admitted by
`schedule_next_batch` rather than deferred, because the quota check
covers only cpu, memory and gpu. -/
theorem C7_counterexample :
    Q.lt (Q.mul (Q.ofInt 100) ⟨8, 10⟩) (Q.ofInt 100) ∧
    Job.get_total_resources
      ⟨"J1", 0, [], .waiting,
        [⟨"T1", .waiting,
          [⟨"I1", "unknown", .waiting, none, none, none, none, none,
            false, Q.ofInt 0, ⟨1, 2⟩, ⟨0, 0, 0, 100⟩, QVec.zero,
            QVec.zero, QVec.zero⟩]⟩]⟩ = ⟨0, 0, 0, 100⟩ ∧
    (Scheduler.schedule_next_batch (Q.ofInt 0) (Q.ofInt 0)
        ⟨[⟨9, 10⟩, ⟨1, 2⟩]⟩
        ⟨⟨⟨100, 100, 100, 100⟩, ⟨100, 100, 100, 100⟩⟩, [(0, "J1")], [],
          [], [], ["J1"], [], [],
          [⟨"J1", 0, [], .waiting,
            [⟨"T1", .waiting,
              [⟨"I1", "unknown", .waiting, none, none, none, none, none,
                false, Q.ofInt 0, ⟨1, 2⟩, ⟨0, 0, 0, 100⟩, QVec.zero,
                QVec.zero, QVec.zero⟩]⟩]⟩]⟩).2.2 = ["J1"] ∧
    (Scheduler.schedule_next_batch (Q.ofInt 0) (Q.ofInt 0)
        ⟨[⟨9, 10⟩, ⟨1, 2⟩]⟩
        ⟨⟨⟨100, 100, 100, 100⟩, ⟨100, 100, 100, 100⟩⟩, [(0, "J1")], [],
          [], [], ["J1"], [], [],
          [⟨"J1", 0, [], .waiting,
            [⟨"T1", .waiting,
              [⟨"I1", "unknown", .waiting, none, none, none, none, none,
                false, Q.ofInt 0, ⟨1, 2⟩, ⟨0, 0, 0, 100⟩, QVec.zero,
                QVec.zero, QVec.zero⟩]⟩]⟩]⟩).1.job_queue = [] := by
  refine ⟨by decide, by decide, by decide, by decide⟩

theorem Q.not_lt_iff (a b : Q) : ¬ Q.lt a b ↔ Q.le b a := by
  unfold Q.le Q.lt
  omega

theorem mem_of_mem_victimPrefix :
    ∀ (l : List (String × Job × RVec)) (needed : RVec)
      (v : String × Job × RVec), v ∈ victimPrefix needed l → v ∈ l := by
  intro l
  induction l with
  | nil => intro needed v h; simp [victimPrefix] at h
  | cons x rest ih =>
    intro needed v h
    unfold victimPrefix at h
    split at h
    · simp at h
    · rcases List.mem_cons.mp h with h1 | h1
      · exact h1 ▸ List.mem_cons_self _ _
      · exact List.mem_cons_of_mem _ (ih _ _ h1)

theorem mem_insertSorted (key : α → Q) (x : α) :
    ∀ (l : List α) (v : α), v ∈ insertSorted key x l → v = x ∨ v ∈ l := by
  intro l
  induction l with
  | nil => intro v h; simp [insertSorted] at h; exact Or.inl h
  | cons y ys ih =>
    intro v h
    unfold insertSorted at h
    split at h
    · rcases List.mem_cons.mp h with h1 | h1
      · exact Or.inr (h1 ▸ List.mem_cons_self _ _)
      · rcases ih v h1 with h2 | h2
        · exact Or.inl h2
        · exact Or.inr (List.mem_cons_of_mem _ h2)
    · rcases List.mem_cons.mp h with h1 | h1
      · exact Or.inl h1
      · exact Or.inr h1

theorem mem_of_mem_sortByKey (key : α → Q) :
    ∀ (l : List α) (v : α), v ∈ sortByKey key l → v ∈ l := by
  intro l
  induction l with
  | nil => intro v h; simp [sortByKey] at h
  | cons x xs ih =>
    intro v h
    unfold sortByKey at h
    rcases mem_insertSorted key x _ v h with h1 | h1
    · exact h1 ▸ List.mem_cons_self _ _
    · exact List.mem_cons_of_mem _ (ih v h1)

theorem mem_collectPreemptable (s : Scheduler) (wallNow : Q) (newJob : Job)
    (prio : Int) (v : String × Job × RVec)
    (hv : v ∈ (collectPreemptable s wallNow newJob prio).1) :
    prio < v.2.1.priority ∧
      (is_spot_instance v.2.1 = true ∨
        should_preempt wallNow v.2.1 newJob = true) := by
  have aux : ∀ (l : List (String × RVec))
      (acc : List (String × Job × RVec) × RVec),
      v ∈ (l.foldl (fun acc entry =>
        match findJob s.all_jobs entry.1 with
        | none => acc
        | some rj =>
          if prio < rj.priority then
            if is_spot_instance rj || should_preempt wallNow rj newJob then
              (acc.1 ++ [(entry.1, rj, entry.2)], acc.2.add entry.2)
            else acc
          else acc) acc).1 →
      v ∈ acc.1 ∨
        (prio < v.2.1.priority ∧
          (is_spot_instance v.2.1 = true ∨
            should_preempt wallNow v.2.1 newJob = true)) := by
    intro l
    induction l with
    | nil => intro acc h; exact Or.inl h
    | cons entry rest ih =>
      intro acc h
      rw [List.foldl_cons] at h
      rcases hf : findJob s.all_jobs entry.1 with _ | rj
      · simp only [hf] at h
        exact ih acc h
      · simp only [hf] at h
        by_cases hp : prio < rj.priority
        · by_cases hsp : (is_spot_instance rj ||
              should_preempt wallNow rj newJob) = true
          · rw [if_pos hp, if_pos hsp] at h
            rcases ih _ h with h1 | h1
            · rcases List.mem_append.mp h1 with h2 | h2
              · exact Or.inl h2
              · simp only [List.mem_singleton] at h2
                subst h2
                exact Or.inr ⟨hp, by simpa using hsp⟩
            · exact Or.inr h1
          · rw [if_pos hp, if_neg hsp] at h
            exact ih acc h
        · rw [if_neg hp] at h
          exact ih acc h
  rcases aux s.running_jobs ([], RVec.zero) hv with h | h
  · simp at h
  · exact h

theorem should_preempt_progress (wallNow : Q) (rj nj : Job)
    (h : should_preempt wallNow rj nj = true) :
    Q.le (Scheduler.get_job_progress wallNow rj) ⟨8, 10⟩ ∧
      (is_spot_instance rj = true ∨ nj.priority + 2 < rj.priority) := by
  unfold should_preempt at h
  by_cases hp : nj.priority < rj.priority
  · rw [if_pos hp] at h
    by_cases hprog : Q.lt ⟨8, 10⟩ (Scheduler.get_job_progress wallNow rj)
    · rw [if_pos hprog] at h
      exact absurd h (by simp)
    · rw [if_neg hprog] at h
      refine ⟨(Q.not_lt_iff _ _).mp hprog, ?_⟩
      by_cases hspot : is_spot_instance rj
      · exact Or.inl hspot
      · rw [if_neg hspot] at h
        exact Or.inr (by simpa using h)
  · rw [if_neg hp] at h
    exact absurd h (by simp)

/-- C4 amended: every victim handed to `_schedule_preemption` by the
admission pass has lower urgency than the pending request, and is either
spot-tagged — in which case its completion progress is NOT bounded — or
a standard job whose progress is at most 0.8 and whose priority exceeds
the request's by more than 2.  The 0.8 progress cap therefore holds only
for standard victims; `_should_preempt` (and its progress guard) is
short-circuited away for spot-tagged jobs. -/
theorem C4_victims_spot_or_low_progress (s : Scheduler) (wallNow : Q)
    (newJob : Job) (prio : Int) (total : RVec) :
    ∀ v ∈ victimPrefix total
      (sortByKey (fun e => calculate_preemption_cost wallNow e.2.1)
        (collectPreemptable s wallNow newJob prio).1),
      prio < v.2.1.priority ∧
        (is_spot_instance v.2.1 = true ∨
          (Q.le (Scheduler.get_job_progress wallNow v.2.1) ⟨8, 10⟩ ∧
            newJob.priority + 2 < v.2.1.priority)) := by
  intro v hv
  have h1 := mem_of_mem_sortByKey _ _ v (mem_of_mem_victimPrefix _ _ v hv)
  obtain ⟨hp, hd⟩ := mem_collectPreemptable s wallNow newJob prio v h1
  refine ⟨hp, ?_⟩
  rcases hd with hspot | hsp
  · exact Or.inl hspot
  · obtain ⟨hprog, hside⟩ := should_preempt_progress wallNow _ _ hsp
    rcases hside with hspot | hcond
    · exact Or.inl hspot
    · exact Or.inr ⟨hprog, hcond⟩

/-- C4 counterexample: running job `R` is spot-tagged and at completion
progress 1 (> 0.8), yet it is selected as a preemption victim for the
pending higher-priority job `P` and its instance is actually moved to
`preempting` by `schedule_next_batch` — the candidate filter
short-circuits on `is_spot` and never consults the progress guard. -/
theorem C4_counterexample :
    ("R", ⟨"R", 5, [], .running,
        [⟨"TR", .running,
          [⟨"IR", "unknown", .running, some (Q.ofInt 0), some (Q.ofInt 100),
            none, none, none, true, Q.ofInt 0, ⟨1, 2⟩, ⟨70, 0, 0, 0⟩,
            QVec.zero, QVec.zero, QVec.zero⟩]⟩]⟩,
      (⟨70, 0, 0, 0⟩ : RVec)) ∈
      victimPrefix ⟨35, 0, 0, 0⟩
        (sortByKey
          (fun e => calculate_preemption_cost (Q.ofInt 100) e.2.1)
          (collectPreemptable
            ⟨⟨⟨100, 100, 100, 100⟩, ⟨5, 100, 100, 100⟩⟩, [(1, "P")],
              [("R", ⟨70, 0, 0, 0⟩)], [], [], ["R", "P"], [], [],
              [⟨"R", 5, [], .running,
                [⟨"TR", .running,
                  [⟨"IR", "unknown", .running, some (Q.ofInt 0),
                    some (Q.ofInt 100), none, none, none, true, Q.ofInt 0,
                    ⟨1, 2⟩, ⟨70, 0, 0, 0⟩, QVec.zero, QVec.zero,
                    QVec.zero⟩]⟩]⟩,
               ⟨"P", 1, [], .waiting,
                [⟨"TP", .waiting,
                  [⟨"IP", "unknown", .waiting, none, none, none, none,
                    none, false, Q.ofInt 0, ⟨1, 2⟩, ⟨35, 0, 0, 0⟩,
                    QVec.zero, QVec.zero, QVec.zero⟩]⟩]⟩]⟩
            (Q.ofInt 100)
            ⟨"P", 1, [], .waiting,
              [⟨"TP", .waiting,
                [⟨"IP", "unknown", .waiting, none, none, none, none, none,
                  false, Q.ofInt 0, ⟨1, 2⟩, ⟨35, 0, 0, 0⟩, QVec.zero,
                  QVec.zero, QVec.zero⟩]⟩]⟩ 1).1) ∧
    Q.lt ⟨8, 10⟩ (Scheduler.get_job_progress (Q.ofInt 100)
      ⟨"R", 5, [], .running,
        [⟨"TR", .running,
          [⟨"IR", "unknown", .running, some (Q.ofInt 0), some (Q.ofInt 100),
            none, none, none, true, Q.ofInt 0, ⟨1, 2⟩, ⟨70, 0, 0, 0⟩,
            QVec.zero, QVec.zero, QVec.zero⟩]⟩]⟩) ∧
    instStatus
      (Scheduler.schedule_next_batch (Q.ofInt 100) (Q.ofInt 100) ⟨[]⟩
        ⟨⟨⟨100, 100, 100, 100⟩, ⟨5, 100, 100, 100⟩⟩, [(1, "P")],
          [("R", ⟨70, 0, 0, 0⟩)], [], [], ["R", "P"], [], [],
          [⟨"R", 5, [], .running,
            [⟨"TR", .running,
              [⟨"IR", "unknown", .running, some (Q.ofInt 0),
                some (Q.ofInt 100), none, none, none, true, Q.ofInt 0,
                ⟨1, 2⟩, ⟨70, 0, 0, 0⟩, QVec.zero, QVec.zero,
                QVec.zero⟩]⟩]⟩,
           ⟨"P", 1, [], .waiting,
            [⟨"TP", .waiting,
              [⟨"IP", "unknown", .waiting, none, none, none, none, none,
                false, Q.ofInt 0, ⟨1, 2⟩, ⟨35, 0, 0, 0⟩, QVec.zero,
                QVec.zero, QVec.zero⟩]⟩]⟩]⟩).1
      "R" "IR" = some .preempting := by
  refine ⟨by decide, by decide, by decide⟩

/-- C4 witness: the victim theorem applied at the counterexample's
concrete pipeline, at victim `R`. -/
theorem C4_victims_spot_or_low_progress_witness :
    (1 : Int) <
      (⟨"R", 5, [], .running,
        [⟨"TR", .running,
          [⟨"IR", "unknown", .running, some (Q.ofInt 0), some (Q.ofInt 100),
            none, none, none, true, Q.ofInt 0, ⟨1, 2⟩, ⟨70, 0, 0, 0⟩,
            QVec.zero, QVec.zero, QVec.zero⟩]⟩]⟩ : Job).priority ∧
    (is_spot_instance
        ⟨"R", 5, [], .running,
          [⟨"TR", .running,
            [⟨"IR", "unknown", .running, some (Q.ofInt 0),
              some (Q.ofInt 100), none, none, none, true, Q.ofInt 0,
              ⟨1, 2⟩, ⟨70, 0, 0, 0⟩, QVec.zero, QVec.zero,
              QVec.zero⟩]⟩]⟩ = true ∨
      (Q.le (Scheduler.get_job_progress (Q.ofInt 100)
          ⟨"R", 5, [], .running,
            [⟨"TR", .running,
              [⟨"IR", "unknown", .running, some (Q.ofInt 0),
                some (Q.ofInt 100), none, none, none, true, Q.ofInt 0,
                ⟨1, 2⟩, ⟨70, 0, 0, 0⟩, QVec.zero, QVec.zero,
                QVec.zero⟩]⟩]⟩) ⟨8, 10⟩ ∧
        (⟨"P", 1, [], .waiting,
          [⟨"TP", .waiting,
            [⟨"IP", "unknown", .waiting, none, none, none, none, none,
              false, Q.ofInt 0, ⟨1, 2⟩, ⟨35, 0, 0, 0⟩, QVec.zero,
              QVec.zero, QVec.zero⟩]⟩]⟩ : Job).priority + 2 <
          (⟨"R", 5, [], .running,
            [⟨"TR", .running,
              [⟨"IR", "unknown", .running, some (Q.ofInt 0),
                some (Q.ofInt 100), none, none, none, true, Q.ofInt 0,
                ⟨1, 2⟩, ⟨70, 0, 0, 0⟩, QVec.zero, QVec.zero,
                QVec.zero⟩]⟩]⟩ : Job).priority)) :=
  C4_victims_spot_or_low_progress
    ⟨⟨⟨100, 100, 100, 100⟩, ⟨5, 100, 100, 100⟩⟩, [(1, "P")],
      [("R", ⟨70, 0, 0, 0⟩)], [], [], ["R", "P"], [], [],
      [⟨"R", 5, [], .running,
        [⟨"TR", .running,
          [⟨"IR", "unknown", .running, some (Q.ofInt 0), some (Q.ofInt 100),
            none, none, none, true, Q.ofInt 0, ⟨1, 2⟩, ⟨70, 0, 0, 0⟩,
            QVec.zero, QVec.zero, QVec.zero⟩]⟩]⟩,
       ⟨"P", 1, [], .waiting,
        [⟨"TP", .waiting,
          [⟨"IP", "unknown", .waiting, none, none, none, none, none,
            false, Q.ofInt 0, ⟨1, 2⟩, ⟨35, 0, 0, 0⟩, QVec.zero, QVec.zero,
            QVec.zero⟩]⟩]⟩]⟩
    (Q.ofInt 100)
    ⟨"P", 1, [], .waiting,
      [⟨"TP", .waiting,
        [⟨"IP", "unknown", .waiting, none, none, none, none, none, false,
          Q.ofInt 0, ⟨1, 2⟩, ⟨35, 0, 0, 0⟩, QVec.zero, QVec.zero,
          QVec.zero⟩]⟩]⟩
    1 ⟨35, 0, 0, 0⟩
    ("R", ⟨"R", 5, [], .running,
      [⟨"TR", .running,
        [⟨"IR", "unknown", .running, some (Q.ofInt 0), some (Q.ofInt 100),
          none, none, none, true, Q.ofInt 0, ⟨1, 2⟩, ⟨70, 0, 0, 0⟩,
          QVec.zero, QVec.zero, QVec.zero⟩]⟩]⟩,
      (⟨70, 0, 0, 0⟩ : RVec))
    (by decide)

/-!
## Terminal-status preservation
Relations tracking, across one scheduler operation, that every instance
keeps its identifier and keeps a `terminated`/`failed` status, that
every task keeps its identifier and status, and that every job keeps its
identifier.  `JobTFS` additionally records that the job status itself is
unchanged (which holds for `schedule_next_batch`, never a writer of
`Job.status`).
-/

def InstTF (i i' : Instance) : Prop :=
  i'.instance_id = i.instance_id ∧
    ((i.status = .terminated ∨ i.status = .failed) → i'.status = i.status)

def TaskTF (tk tk' : Task) : Prop :=
  tk'.task_id = tk.task_id ∧ tk'.status = tk.status ∧
    List.Forall₂ InstTF tk.instances tk'.instances

def JobTF (j j' : Job) : Prop :=
  j'.job_id = j.job_id ∧ List.Forall₂ TaskTF j.tasks j'.tasks

def JobTFS (j j' : Job) : Prop := JobTF j j' ∧ j'.status = j.status

def StoreTF (jobs jobs' : List Job) : Prop := List.Forall₂ JobTF jobs jobs'

def StoreTFS (jobs jobs' : List Job) : Prop := List.Forall₂ JobTFS jobs jobs'

theorem instTF_refl (i : Instance) : InstTF i i := ⟨rfl, fun _ => rfl⟩

theorem taskTF_refl (tk : Task) : TaskTF tk tk :=
  ⟨rfl, rfl, List.forall₂_same.mpr (fun i _ => instTF_refl i)⟩

theorem jobTF_refl (j : Job) : JobTF j j :=
  ⟨rfl, List.forall₂_same.mpr (fun tk _ => taskTF_refl tk)⟩

theorem jobTFS_refl (j : Job) : JobTFS j j := ⟨jobTF_refl j, rfl⟩

theorem storeTF_refl (jobs : List Job) : StoreTF jobs jobs :=
  List.forall₂_same.mpr (fun j _ => jobTF_refl j)

theorem storeTFS_refl (jobs : List Job) : StoreTFS jobs jobs :=
  List.forall₂_same.mpr (fun j _ => jobTFS_refl j)

theorem forall₂_trans {α : Type} {R : α → α → Prop}
    (htr : ∀ a b c, R a b → R b c → R a c) :
    ∀ {l1 l2 l3 : List α}, List.Forall₂ R l1 l2 → List.Forall₂ R l2 l3 →
      List.Forall₂ R l1 l3 := by
  intro l1 l2 l3 h12
  induction h12 generalizing l3 with
  | nil =>
    intro h23
    cases h23
    exact List.Forall₂.nil
  | cons hab hrest ih =>
    intro h23
    cases h23 with
    | cons hbc hrest2 =>
      exact List.Forall₂.cons (htr _ _ _ hab hbc) (ih hrest2)

theorem instTF_trans (a b c : Instance) (h1 : InstTF a b)
    (h2 : InstTF b c) : InstTF a c := by
  refine ⟨h2.1.trans h1.1, fun hst => ?_⟩
  have hb := h1.2 hst
  have : (b.status = .terminated ∨ b.status = .failed) := by
    rcases hst with h | h
    · exact Or.inl (hb.trans (h ▸ rfl))
    · exact Or.inr (hb.trans (h ▸ rfl))
  exact (h2.2 this).trans hb

theorem taskTF_trans (a b c : Task) (h1 : TaskTF a b) (h2 : TaskTF b c) :
    TaskTF a c :=
  ⟨h2.1.trans h1.1, h2.2.1.trans h1.2.1,
    forall₂_trans instTF_trans h1.2.2 h2.2.2⟩

theorem jobTF_trans (a b c : Job) (h1 : JobTF a b) (h2 : JobTF b c) :
    JobTF a c :=
  ⟨h2.1.trans h1.1, forall₂_trans taskTF_trans h1.2 h2.2⟩

theorem jobTFS_trans (a b c : Job) (h1 : JobTFS a b) (h2 : JobTFS b c) :
    JobTFS a c :=
  ⟨jobTF_trans a b c h1.1 h2.1, h2.2.trans h1.2⟩

theorem storeTF_trans {a b c : List Job} (h1 : StoreTF a b)
    (h2 : StoreTF b c) : StoreTF a c :=
  forall₂_trans jobTF_trans h1 h2

theorem storeTFS_trans {a b c : List Job} (h1 : StoreTFS a b)
    (h2 : StoreTFS b c) : StoreTFS a c :=
  forall₂_trans jobTFS_trans h1 h2

theorem StoreTFS.toTF {a b : List Job} (h : StoreTFS a b) : StoreTF a b :=
  List.Forall₂.imp (fun _ _ hab => hab.1) h

theorem StoreTF.ids {a b : List Job} (h : StoreTF a b) :
    b.map Job.job_id = a.map Job.job_id := by
  induction h with
  | nil => rfl
  | cons hab hrest ih => simp [hab.1, ih]

/-- `find?` correspondence through `Forall₂` when the relation preserves
the search key. -/
theorem find?_forall₂ {α : Type} {R : α → α → Prop} (p : α → Bool)
    (hkey : ∀ a b, R a b → p b = p a) :
    ∀ {l l' : List α}, List.Forall₂ R l l' →
      (∀ a, l.find? p = some a →
        ∃ b, l'.find? p = some b ∧ R a b) := by
  intro l l' h
  induction h with
  | nil => intro a ha; simp at ha
  | cons hab hrest ih =>
    intro a ha
    rename_i x y xs ys
    cases hpx : p x with
    | true =>
      rw [List.find?_cons, hpx] at ha
      refine ⟨y, ?_, ?_⟩
      · rw [List.find?_cons, hkey x y hab, hpx]
      · cases ha
        exact hab
    | false =>
      rw [List.find?_cons, hpx] at ha
      obtain ⟨b, hb1, hb2⟩ := ih a ha
      refine ⟨b, ?_, hb2⟩
      rw [List.find?_cons, hkey x y hab, hpx]
      exact hb1

theorem foldr_instances_forall₂ :
    ∀ {ts ts' : List Task}, List.Forall₂ TaskTF ts ts' →
      List.Forall₂ InstTF
        (ts.foldr (fun tk acc => tk.instances ++ acc) [])
        (ts'.foldr (fun tk acc => tk.instances ++ acc) []) := by
  intro ts ts' h
  induction h with
  | nil => exact List.Forall₂.nil
  | cons hab hrest ih =>
    simp only [List.foldr_cons]
    exact List.rel_append hab.2.2 ih

theorem jobInstances_forall₂ (j j' : Job) (h : JobTF j j') :
    List.Forall₂ InstTF (jobInstances j) (jobInstances j') :=
  foldr_instances_forall₂ h.2

def findTask (j : Job) (tid : String) : Option Task :=
  j.tasks.find? (fun tk => tk.task_id == tid)

/-- The status of task `tid` of job `jid` as seen in the store. -/
def taskStatus (s : Scheduler) (jid tid : String) : Option Status :=
  (findJob s.all_jobs jid).bind fun j =>
    (findTask j tid).map fun tk => tk.status

theorem find?_forall₂_none {α : Type} {R : α → α → Prop} (p : α → Bool)
    (hkey : ∀ a b, R a b → p b = p a) :
    ∀ {l l' : List α}, List.Forall₂ R l l' →
      l.find? p = none → l'.find? p = none := by
  intro l l' h
  induction h with
  | nil => intro _; rfl
  | cons hab hrest ih =>
    intro hnone
    rename_i x y xs ys
    cases hpx : p x with
    | true => rw [List.find?_cons, hpx] at hnone; exact absurd hnone (by simp)
    | false =>
      rw [List.find?_cons, hpx] at hnone
      rw [List.find?_cons, hkey x y hab, hpx]
      exact ih hnone

theorem findJob_storeTF {jobs jobs' : List Job} (hrel : StoreTF jobs jobs')
    (jid : String) (j : Job) (hj : findJob jobs jid = some j) :
    ∃ j', findJob jobs' jid = some j' ∧ JobTF j j' := by
  unfold findJob at hj ⊢
  exact find?_forall₂ (fun x => x.job_id == jid)
    (fun a b hab => by simp [hab.1]) hrel j hj

theorem findInst_jobTF {j j' : Job} (hrel : JobTF j j') (iid : String)
    (i : Instance) (hi : findInst j iid = some i) :
    ∃ i', findInst j' iid = some i' ∧ InstTF i i' := by
  unfold findInst at hi ⊢
  exact find?_forall₂ (fun x => x.instance_id == iid)
    (fun a b hab => by simp [hab.1]) (jobInstances_forall₂ j j' hrel) i hi

theorem findTask_jobTF {j j' : Job} (hrel : JobTF j j') (tid : String)
    (tk : Task) (htk : findTask j tid = some tk) :
    ∃ tk', findTask j' tid = some tk' ∧ TaskTF tk tk' := by
  unfold findTask at htk ⊢
  exact find?_forall₂ (fun x => x.task_id == tid)
    (fun a b hab => by simp [hab.1]) hrel.2 tk htk

/-- Terminal instance statuses survive any store transformation related
by `StoreTF`. -/
theorem instStatus_of_storeTF {jobs jobs' : List Job}
    (hrel : StoreTF jobs jobs') (jid iid : String) (st : Status)
    (hst : st = .terminated ∨ st = .failed)
    (hlook : ((findJob jobs jid).bind fun j =>
      (findInst j iid).map fun i => i.status) = some st) :
    ((findJob jobs' jid).bind fun j =>
      (findInst j iid).map fun i => i.status) = some st := by
  rcases hj : findJob jobs jid with _ | j
  · rw [hj] at hlook; simp at hlook
  · rw [hj] at hlook
    rw [Option.some_bind] at hlook
    rcases hi : findInst j iid with _ | i
    · rw [hi] at hlook; simp at hlook
    · rw [hi] at hlook
      rw [Option.map_some'] at hlook
      have histatus : i.status = st := Option.some.inj hlook
      obtain ⟨j', hj', hjrel⟩ := findJob_storeTF hrel jid j hj
      obtain ⟨i', hi', hirel⟩ := findInst_jobTF hjrel iid i hi
      rw [hj', Option.some_bind, hi', Option.map_some']
      have hs : i'.status = i.status := by
        refine hirel.2 ?_
        rw [histatus]
        exact hst
      rw [hs, histatus]

/-- All task statuses survive any store transformation related by
`StoreTF` (neither scheduler pass ever writes `Task.status`). -/
theorem taskStatus_of_storeTF {jobs jobs' : List Job}
    (hrel : StoreTF jobs jobs') (jid tid : String) (st : Status)
    (hlook : ((findJob jobs jid).bind fun j =>
      (findTask j tid).map fun tk => tk.status) = some st) :
    ((findJob jobs' jid).bind fun j =>
      (findTask j tid).map fun tk => tk.status) = some st := by
  rcases hj : findJob jobs jid with _ | j
  · rw [hj] at hlook; simp at hlook
  · rw [hj] at hlook
    rw [Option.some_bind] at hlook
    rcases ht : findTask j tid with _ | tk
    · rw [ht] at hlook; simp at hlook
    · rw [ht] at hlook
      rw [Option.map_some'] at hlook
      obtain ⟨j', hj', hjrel⟩ := findJob_storeTF hrel jid j hj
      obtain ⟨tk', ht', htrel⟩ := findTask_jobTF hjrel tid tk ht
      rw [hj', Option.some_bind, ht', Option.map_some', htrel.2.1]
      exact hlook

/-- All job statuses survive a store transformation related by
`StoreTFS`. -/
theorem jobStatus_of_storeTFS {jobs jobs' : List Job}
    (hrel : StoreTFS jobs jobs') (jid : String) :
    (findJob jobs' jid).map Job.status = (findJob jobs jid).map Job.status
    := by
  rcases hj : findJob jobs jid with _ | j
  · have hnone : findJob jobs' jid = none := by
      unfold findJob at hj ⊢
      exact find?_forall₂_none (fun x => x.job_id == jid)
        (fun a b hab => by simp [hab.1.1]) hrel hj
    rw [hnone]
  · obtain ⟨j', hj', hjrel⟩ := findJob_storeTF hrel.toTF jid j hj
    have hjs : j'.status = j.status := by
      obtain ⟨j2, hj2, hrel2⟩ := find?_forall₂ (fun x => x.job_id == jid)
        (fun a b hab => by simp [hab.1.1]) hrel j
        (by unfold findJob at hj; exact hj)
      have : findJob jobs' jid = some j2 := hj2
      rw [hj'] at this
      cases Option.some.inj this
      exact hrel2.2
    rw [hj', Option.map_some', hjs]
    rfl


theorem updStatusInstance_id (jid : String) (t : Q) (g : Rng)
    (i : Instance) :
    (updStatusInstance jid t g i).1.instance_id = i.instance_id := by
  have hid := Instance.update_usage_id t g i
  unfold updStatusInstance
  dsimp only
  split <;> (try split) <;> (try split) <;> (try split) <;> (try split) <;>
    simp [hid]

theorem updStatusInstance_instTF (jid : String) (t : Q) (g : Rng)
    (i : Instance) : InstTF i (updStatusInstance jid t g i).1 := by
  refine ⟨updStatusInstance_id jid t g i, ?_⟩
  intro hterm
  have hs : (Instance.update_usage t g i).1.status = i.status :=
    Instance.update_usage_status t g i
  rcases hterm with h | h
  · have h2 : (Instance.update_usage t g i).1.status = .terminated := by
      rw [hs, h]
    unfold updStatusInstance
    simp only [h2]
    simp [h]
  · have h2 : (Instance.update_usage t g i).1.status = .failed := by
      rw [hs, h]
    unfold updStatusInstance
    simp only [h2]
    simp [h]

theorem updStatusInstList_forall₂ (jid : String) (t : Q) :
    ∀ (l : List Instance) (g : Rng),
      List.Forall₂ InstTF l (updStatusInstList jid t g l).1 := by
  intro l
  induction l with
  | nil => intro g; exact List.Forall₂.nil
  | cons i rest ih =>
    intro g
    exact List.Forall₂.cons (updStatusInstance_instTF jid t g i) (ih _)

theorem updStatusTaskList_forall₂ (jid : String) (t : Q) :
    ∀ (ts : List Task) (g : Rng),
      List.Forall₂ TaskTF ts (updStatusTaskList jid t g ts).1 := by
  intro ts
  induction ts with
  | nil => intro g; exact List.Forall₂.nil
  | cons tk rest ih =>
    intro g
    exact List.Forall₂.cons ⟨rfl, rfl, updStatusInstList_forall₂ jid t _ g⟩
      (ih _)

theorem setJob_of_not_mem (k : String) (j1 : Job) :
    ∀ jobs : List Job, k ∉ jobs.map Job.job_id →
      setJob jobs k j1 = jobs := by
  intro jobs
  induction jobs with
  | nil => intro _; rfl
  | cons x rest ih =>
    intro h
    rw [List.map_cons] at h
    have hx : (x.job_id == k) = false := by
      simp only [List.mem_cons, not_or] at h
      simp [Ne.symm h.1]
    unfold setJob
    rw [List.map_cons, if_neg (by simp [hx])]
    have := ih (fun hm => h (List.mem_cons_of_mem _ hm))
    unfold setJob at this
    rw [this]

theorem forall₂_job_ids {R : Job → Job → Prop}
    (hids : ∀ a b, R a b → b.job_id = a.job_id) :
    ∀ {l l' : List Job}, List.Forall₂ R l l' →
      l'.map Job.job_id = l.map Job.job_id := by
  intro l l' h
  induction h with
  | nil => rfl
  | cons hab hrest ih => simp [hids _ _ hab, ih]

/-- Setting the (unique) entry `k` of a related store to a value related
to the original entry keeps the whole store related. -/
theorem forall₂_setJob {R : Job → Job → Prop}
    (hids : ∀ a b, R a b → b.job_id = a.job_id) (k : String)
    (job j1 : Job) (hrel1 : R job j1) :
    ∀ {jobs jobs2 : List Job}, List.Forall₂ R jobs jobs2 →
      (jobs.map Job.job_id).Nodup →
      findJob jobs k = some job →
      List.Forall₂ R jobs (setJob jobs2 k j1) := by
  intro jobs jobs2 h
  induction h with
  | nil => intro _ hfind; simp [findJob] at hfind
  | cons hxy hrest ih =>
    rename_i x y xs ys
    intro hnodup hfind
    rw [List.map_cons, List.nodup_cons] at hnodup
    have hyid : y.job_id = x.job_id := hids x y hxy
    by_cases hx : (x.job_id == k) = true
    · have hxk : x.job_id = k := by simpa using hx
      have hjob : job = x := by
        unfold findJob at hfind
        rw [List.find?_cons, hx] at hfind
        exact (Option.some.inj hfind).symm
      have hknotin : k ∉ ys.map Job.job_id := by
        rw [forall₂_job_ids hids hrest, ← hxk]
        exact hnodup.1
      have hset : setJob ys k j1 = ys := setJob_of_not_mem k j1 ys hknotin
      unfold setJob
      rw [List.map_cons, if_pos (by simp [hyid, hxk])]
      have hset' : List.map (fun j => if (j.job_id == k) = true then j1
          else j) ys = ys := by
        unfold setJob at hset
        exact hset
      rw [hset']
      exact List.Forall₂.cons (hjob ▸ hrel1) hrest
    · have hx' : (x.job_id == k) = false := by simpa using hx
      have hfind' : findJob xs k = some job := by
        unfold findJob at hfind ⊢
        rw [List.find?_cons, hx'] at hfind
        exact hfind
      have hyk : (y.job_id == k) = false := by
        simp only [hyid]
        exact hx'
      unfold setJob
      rw [List.map_cons, if_neg (by simp [hyk])]
      exact List.Forall₂.cons hxy (ih hnodup.2 hfind')

theorem processRunningJob_storeTF (t : Q) (acc : Scheduler × Rng × List String)
    (entry : String × RVec)
    (hnodup : (acc.1.all_jobs.map Job.job_id).Nodup) :
    StoreTF acc.1.all_jobs (processRunningJob t acc entry).1.all_jobs := by
  unfold processRunningJob
  cases hf : findJob acc.1.all_jobs entry.1 with
  | none => simp only [hf]; exact storeTF_refl _
  | some job =>
    simp only [hf]
    have hrel : JobTF job
        { job with
            tasks := (updStatusTaskList entry.1 t acc.2.1 job.tasks).1
            status := deriveJobStatus job.status
              (updStatusTaskList entry.1 t acc.2.1 job.tasks).1 } :=
      ⟨rfl, updStatusTaskList_forall₂ entry.1 t job.tasks acc.2.1⟩
    have hset := forall₂_setJob (R := JobTF) (fun a b hab => hab.1)
      entry.1 job _ hrel (storeTF_refl acc.1.all_jobs) hnodup hf
    split <;> (try split) <;> (try split) <;> (try split) <;> exact hset

theorem foldl_processRunningJob_storeTF (t : Q) :
    ∀ (l : List (String × RVec)) (acc : Scheduler × Rng × List String),
      (acc.1.all_jobs.map Job.job_id).Nodup →
      StoreTF acc.1.all_jobs
        ((l.foldl (processRunningJob t) acc)).1.all_jobs := by
  intro l
  induction l with
  | nil => intro acc _; exact storeTF_refl _
  | cons e rest ih =>
    intro acc hnodup
    have hstep := processRunningJob_storeTF t acc e hnodup
    have hnodup2 : ((processRunningJob t acc e).1.all_jobs.map
        Job.job_id).Nodup := by
      rw [StoreTF.ids hstep]
      exact hnodup
    rw [List.foldl_cons]
    exact storeTF_trans hstep (ih _ hnodup2)

/-- `update_job_status` keeps every terminal instance status, every task
status and every job identifier (the `StoreTF` relation). -/
theorem update_job_status_storeTF (t : Q) (g : Rng) (s : Scheduler)
    (hnodup : (s.all_jobs.map Job.job_id).Nodup) :
    StoreTF s.all_jobs (Scheduler.update_job_status t g s).1.all_jobs :=
  foldl_processRunningJob_storeTF t s.running_jobs (s, g, []) hnodup

theorem preemptInstance_instTF (jid : String) (t : Q) (i : Instance) :
    InstTF i (preemptInstance jid t i).1 := by
  unfold preemptInstance
  by_cases h : (i.status == Status.running) = true
  · rw [if_pos h]
    constructor
    · by_cases hsp : i.is_spot = true <;> simp [hsp]
    · intro hterm
      exfalso
      have : i.status = .running := by simpa using h
      rcases hterm with h2 | h2 <;> simp [h2] at this
  · rw [if_neg h]
    exact instTF_refl i

theorem preemptInstList_forall₂ (jid : String) (t : Q) :
    ∀ l : List Instance,
      List.Forall₂ InstTF l (preemptInstList jid t l).1 := by
  intro l
  induction l with
  | nil => exact List.Forall₂.nil
  | cons i rest ih =>
    exact List.Forall₂.cons (preemptInstance_instTF jid t i) ih

theorem preemptTaskList_forall₂ (jid : String) (t : Q) :
    ∀ ts : List Task,
      List.Forall₂ TaskTF ts (preemptTaskList jid t ts).1 := by
  intro ts
  induction ts with
  | nil => exact List.Forall₂.nil
  | cons tk rest ih =>
    exact List.Forall₂.cons ⟨rfl, rfl, preemptInstList_forall₂ jid t _⟩ ih

theorem schedule_preemption_storeTFS (t : Q) (s : Scheduler) (jid : String)
    (hnodup : (s.all_jobs.map Job.job_id).Nodup) :
    StoreTFS s.all_jobs (Scheduler.schedule_preemption t s jid).all_jobs
    := by
  unfold Scheduler.schedule_preemption
  cases hf : findJob s.all_jobs jid with
  | none => simp only [hf]; exact storeTFS_refl _
  | some job =>
    simp only [hf]
    exact forall₂_setJob (R := JobTFS) (fun a b hab => hab.1.1) jid job
      { job with tasks := (preemptTaskList jid t job.tasks).1 }
      ⟨⟨rfl, preemptTaskList_forall₂ jid t job.tasks⟩, rfl⟩
      (storeTFS_refl s.all_jobs) hnodup hf

theorem foldl_schedule_preemption_storeTFS (t : Q) :
    ∀ (victims : List (String × Job × RVec)) (s : Scheduler),
      (s.all_jobs.map Job.job_id).Nodup →
      StoreTFS s.all_jobs
        (victims.foldl
          (fun st v => Scheduler.schedule_preemption t st v.1) s).all_jobs
    := by
  intro victims
  induction victims with
  | nil => intro s _; exact storeTFS_refl _
  | cons v rest ih =>
    intro s hnodup
    have hstep := schedule_preemption_storeTFS t s v.1 hnodup
    have hnodup2 : ((Scheduler.schedule_preemption t s v.1).all_jobs.map
        Job.job_id).Nodup := by
      rw [StoreTF.ids hstep.toTF]
      exact hnodup
    rw [List.foldl_cons]
    exact storeTFS_trans hstep (ih _ hnodup2)

theorem preemptionPhase_storeTFS (wallNow t : Q) (s : Scheduler)
    (newJob : Job) (prio : Int) (total : RVec)
    (hnodup : (s.all_jobs.map Job.job_id).Nodup) :
    StoreTFS s.all_jobs
      (preemptionPhase wallNow t s newJob prio total).all_jobs := by
  unfold preemptionPhase
  dsimp only
  split
  · exact foldl_schedule_preemption_storeTFS t _ s hnodup
  · exact storeTFS_refl _

theorem startInstance_instTF (jid : String) (t : Q) (g : Rng)
    (i : Instance) : InstTF i (startInstance jid t g i).1 := by
  unfold startInstance
  by_cases h : (i.status == Status.waiting || i.status == Status.interrupted)
      = true
  · rw [if_pos h]
    constructor
    · simp
    · intro hterm
      exfalso
      rcases hterm with h2 | h2 <;> simp [h2] at h
  · rw [if_neg h]
    exact instTF_refl i

theorem startInstList_forall₂ (jid : String) (t : Q) :
    ∀ (l : List Instance) (g : Rng),
      List.Forall₂ InstTF l (startInstList jid t g l).1 := by
  intro l
  induction l with
  | nil => intro g; exact List.Forall₂.nil
  | cons i rest ih =>
    intro g
    exact List.Forall₂.cons (startInstance_instTF jid t g i) (ih _)

theorem startTaskList_forall₂ (jid : String) (t : Q) :
    ∀ (ts : List Task) (g : Rng),
      List.Forall₂ TaskTF ts (startTaskList jid t g ts).1 := by
  intro ts
  induction ts with
  | nil => intro g; exact List.Forall₂.nil
  | cons tk rest ih =>
    intro g
    exact List.Forall₂.cons ⟨rfl, rfl, startInstList_forall₂ jid t _ g⟩
      (ih _)

theorem batchLoop_storeTFS (wallNow t : Q) :
    ∀ (fuel : Nat) (s : Scheduler) (g : Rng) (sched : List String)
      (skipped : List (Int × String)) (jobs0 : List Job),
      StoreTFS jobs0 s.all_jobs →
      (jobs0.map Job.job_id).Nodup →
      StoreTFS jobs0
        (batchLoop wallNow t fuel s g sched skipped).1.all_jobs := by
  intro fuel
  induction fuel with
  | zero => intro s g sched skipped jobs0 hrel0 _; exact hrel0
  | succ fuel ih =>
    intro s g sched skipped jobs0 hrel0 hnodup0
    have hnodupS : (s.all_jobs.map Job.job_id).Nodup := by
      rw [StoreTF.ids hrel0.toTF]
      exact hnodup0
    unfold batchLoop
    cases hpop : popMin s.job_queue with
    | none => simp only [hpop]; exact hrel0
    | some pr =>
      obtain ⟨⟨prio, jid⟩, rest⟩ := pr
      simp only [hpop]
      cases hf : findJob s.all_jobs jid with
      | none =>
        simp only [hf]
        exact ih _ g sched (skipped ++ [(prio, jid)]) jobs0 hrel0 hnodup0
      | some job =>
        simp only [hf]
        by_cases hq : Scheduler.check_zone_quotas
            { s with job_queue := rest } job.get_total_resources
        · rw [if_pos hq]
          have hphase0 : StoreTFS s.all_jobs
              (preemptionPhase wallNow t { s with job_queue := rest } job
                prio job.get_total_resources).all_jobs :=
            preemptionPhase_storeTFS wallNow t { s with job_queue := rest }
              job prio job.get_total_resources hnodupS
          have hjob1 : ∀ g2 : Rng, JobTFS job
              { job with tasks := (startTaskList jid t g2 job.tasks).1 } :=
            fun g2 => ⟨⟨rfl, startTaskList_forall₂ jid t job.tasks g2⟩, rfl⟩
          by_cases hca0 : ({ s with job_queue := rest } :
              Scheduler).resource_manager.can_allocate
              job.get_total_resources
          · rw [if_pos hca0, if_pos hca0]
            have h3 : StoreTFS s.all_jobs
                (setJob s.all_jobs jid
                  { job with
                      tasks := (startTaskList jid t g job.tasks).1 }) :=
              forall₂_setJob (R := JobTFS) (fun a b hab => hab.1.1) jid job
                _ (hjob1 g) (storeTFS_refl s.all_jobs) hnodupS hf
            exact ih _ (startTaskList jid t g job.tasks).2.1
              (sched ++ [jid]) skipped jobs0 (storeTFS_trans hrel0 h3)
              hnodup0
          · rw [if_neg hca0]
            by_cases hca1 : (preemptionPhase wallNow t
                { s with job_queue := rest } job prio
                job.get_total_resources).resource_manager.can_allocate
                job.get_total_resources
            · rw [if_pos hca1]
              have h3 : StoreTFS s.all_jobs
                  (setJob (preemptionPhase wallNow t
                    { s with job_queue := rest } job prio
                    job.get_total_resources).all_jobs jid
                    { job with
                        tasks := (startTaskList jid t g job.tasks).1 }) :=
                forall₂_setJob (R := JobTFS) (fun a b hab => hab.1.1) jid
                  job _ (hjob1 g) hphase0 hnodupS hf
              exact ih _ (startTaskList jid t g job.tasks).2.1
                (sched ++ [jid]) skipped jobs0 (storeTFS_trans hrel0 h3)
                hnodup0
            · rw [if_neg hca1]
              exact ih _ g sched (skipped ++ [(prio, jid)]) jobs0
                (storeTFS_trans hrel0 hphase0) hnodup0
        · rw [if_neg hq]
          exact ih { s with job_queue := rest } g sched
            (skipped ++ [(prio, jid)]) jobs0 hrel0 hnodup0

/-- `schedule_next_batch` keeps every terminal instance status, every
task status, every job identifier AND every job status (the `StoreTFS`
relation): the admission pass never writes `Job.status`. -/
theorem schedule_next_batch_storeTFS (wallNow t : Q) (g : Rng)
    (s : Scheduler) (hnodup : (s.all_jobs.map Job.job_id).Nodup) :
    StoreTFS s.all_jobs
      (Scheduler.schedule_next_batch wallNow t g s).1.all_jobs :=
  batchLoop_storeTFS wallNow t s.job_queue.length s g [] [] s.all_jobs
    (storeTFS_refl s.all_jobs) hnodup

/-- C3 amended: `terminated` and `failed` are genuinely frozen — across
both per-tick passes no instance with either status ever changes, no
task status is ever written, `schedule_next_batch` never writes any job
status, and `update_job_status` leaves every job outside the running map
untouched.  `interrupted` however is NOT frozen in the code: interrupted
jobs are re-queued and `schedule_next_batch` moves their interrupted
instances back to `running` (see the counterexample), so the claim fails
for the third "terminal" status. -/
theorem C3_terminal_monotonicity (s : Scheduler) (wallNow t1 t2 : Q)
    (g1 g2 : Rng) (jid iid tid : String) (st stT : Status)
    (hnodup : (s.all_jobs.map Job.job_id).Nodup)
    (hst : st = .terminated ∨ st = .failed) :
    (instStatus s jid iid = some st →
      instStatus (Scheduler.update_job_status t1 g1 s).1 jid iid = some st ∧
      instStatus (Scheduler.schedule_next_batch wallNow t2 g2 s).1 jid iid
        = some st) ∧
    (taskStatus s jid tid = some stT →
      taskStatus (Scheduler.update_job_status t1 g1 s).1 jid tid
        = some stT ∧
      taskStatus (Scheduler.schedule_next_batch wallNow t2 g2 s).1 jid tid
        = some stT) ∧
    ((findJob (Scheduler.schedule_next_batch wallNow t2 g2 s).1.all_jobs
        jid).map Job.status = (findJob s.all_jobs jid).map Job.status) ∧
    (jid ∉ s.running_jobs.map Prod.fst →
      findJob (Scheduler.update_job_status t1 g1 s).1.all_jobs jid =
        findJob s.all_jobs jid) := by
  have hTF := update_job_status_storeTF t1 g1 s hnodup
  have hTFS := schedule_next_batch_storeTFS wallNow t2 g2 s hnodup
  refine ⟨fun hlook => ⟨?_, ?_⟩, fun hlook => ⟨?_, ?_⟩, ?_, ?_⟩
  · exact instStatus_of_storeTF hTF jid iid st hst hlook
  · exact instStatus_of_storeTF hTFS.toTF jid iid st hst hlook
  · exact taskStatus_of_storeTF hTF jid tid stT hlook
  · exact taskStatus_of_storeTF hTFS.toTF jid tid stT hlook
  · exact jobStatus_of_storeTFS hTFS jid
  · intro hnotin
    have hl : ∀ e ∈ s.running_jobs, e.1 ≠ jid :=
      fun e he hEq => hnotin (List.mem_map.mpr ⟨e, he, hEq⟩)
    exact (foldl_processRunningJob_frame t1 jid s.running_jobs
      (s, g1, []) hl).1

/-- C3 counterexample: `interrupted` is listed as terminal, yet a queued
job whose instance is `interrupted` is restarted by the next
`schedule_next_batch`: the instance's status changes back to
`running`. -/
theorem C3_counterexample :
    instStatus
      ⟨⟨⟨10, 10, 10, 10⟩, ⟨10, 10, 10, 10⟩⟩, [(0, "J1")], [], [], [],
        ["J1"], [], [],
        [⟨"J1", 0, [], .interrupted,
          [⟨"T1", .interrupted,
            [⟨"I1", "unknown", .interrupted, some (Q.ofInt 0),
              some (Q.ofInt 50), some (Q.ofInt 10), none, none, false,
              Q.ofInt 0, ⟨1, 2⟩, ⟨1, 0, 0, 0⟩, QVec.zero, QVec.zero,
              QVec.zero⟩]⟩]⟩]⟩
      "J1" "I1" = some .interrupted ∧
    instStatus
      (Scheduler.schedule_next_batch (Q.ofInt 100) (Q.ofInt 100)
        ⟨[⟨9, 10⟩, ⟨1, 2⟩]⟩
        ⟨⟨⟨10, 10, 10, 10⟩, ⟨10, 10, 10, 10⟩⟩, [(0, "J1")], [], [], [],
          ["J1"], [], [],
          [⟨"J1", 0, [], .interrupted,
            [⟨"T1", .interrupted,
              [⟨"I1", "unknown", .interrupted, some (Q.ofInt 0),
                some (Q.ofInt 50), some (Q.ofInt 10), none, none, false,
                Q.ofInt 0, ⟨1, 2⟩, ⟨1, 0, 0, 0⟩, QVec.zero, QVec.zero,
                QVec.zero⟩]⟩]⟩]⟩).1
      "J1" "I1" = some .running := by
  refine ⟨by decide, by decide⟩

/-- C3 witness: the monotonicity theorem applied to a one-job store with
a terminated instance. -/
theorem C3_terminal_monotonicity_witness :
    instStatus
      (Scheduler.update_job_status (Q.ofInt 0) ⟨[]⟩
        ⟨⟨⟨10, 10, 10, 10⟩, ⟨10, 10, 10, 10⟩⟩, [], [], [], [], ["J1"],
          [], [],
          [⟨"J1", 0, [], .terminated,
            [⟨"T1", .terminated,
              [⟨"I1", "unknown", .terminated, some (Q.ofInt 0),
                some (Q.ofInt 50), none, none, none, false, Q.ofInt 0,
                ⟨1, 2⟩, ⟨1, 0, 0, 0⟩, QVec.zero, QVec.zero,
                QVec.zero⟩]⟩]⟩]⟩).1
      "J1" "I1" = some .terminated ∧
    instStatus
      (Scheduler.schedule_next_batch (Q.ofInt 0) (Q.ofInt 0) ⟨[]⟩
        ⟨⟨⟨10, 10, 10, 10⟩, ⟨10, 10, 10, 10⟩⟩, [], [], [], [], ["J1"],
          [], [],
          [⟨"J1", 0, [], .terminated,
            [⟨"T1", .terminated,
              [⟨"I1", "unknown", .terminated, some (Q.ofInt 0),
                some (Q.ofInt 50), none, none, none, false, Q.ofInt 0,
                ⟨1, 2⟩, ⟨1, 0, 0, 0⟩, QVec.zero, QVec.zero,
                QVec.zero⟩]⟩]⟩]⟩).1
      "J1" "I1" = some .terminated :=
  (C3_terminal_monotonicity
    ⟨⟨⟨10, 10, 10, 10⟩, ⟨10, 10, 10, 10⟩⟩, [], [], [], [], ["J1"], [], [],
      [⟨"J1", 0, [], .terminated,
        [⟨"T1", .terminated,
          [⟨"I1", "unknown", .terminated, some (Q.ofInt 0),
            some (Q.ofInt 50), none, none, none, false, Q.ofInt 0,
            ⟨1, 2⟩, ⟨1, 0, 0, 0⟩, QVec.zero, QVec.zero, QVec.zero⟩]⟩]⟩]⟩
    (Q.ofInt 0) (Q.ofInt 0) (Q.ofInt 0) ⟨[]⟩ ⟨[]⟩ "J1" "I1" "T1"
    .terminated .waiting (by decide) (Or.inl rfl)).1 (by decide)

end Cloudy
